import Mathlib

/-!
# Stego web client: shallow embedding of the two `script.js` variants

Two copies of the browser script are embedded:

* `UrlVariant`: `Advanced-stegnography-suite-main/adv_steg_suite/web_app/static/css/js/script.js`
  (JSON responses carrying URLs, `/api/encode_<mode>`), and
* `BinaryVariant`: `adv_steg_suite/web_app/static/css/js/script.js`
  (binary response bodies, `/encode/<mode>`).

The browser is modelled by a `World`: the document (a list of elements in document
order), the registered event listeners, and a chronological log of the observable
effects (alerts, network requests, anchor operations, console output, file reads).
Everything the environment decides (what a fetch returns, the clock, the URL minted for
a blob) is an explicit argument. JavaScript strings are modelled by Lean strings; an
element is addressed by its id, or by its position in the document where it has none.
-/

namespace StegoClient

/-! ## JavaScript values -/

/-- A thrown JavaScript error: its constructor name and its `message`. The text of
engine-generated messages is the one V8 prints; no theorem depends on it. -/
structure JsError where
  name : String
  message : String
deriving DecidableEq, Repr

/-- The `TypeError` raised by the engine itself. -/
def typeError (message : String) : JsError := ⟨"TypeError", message⟩

/-- Values produced by `JSON.parse` (plus `undefined`, the result of reading an absent
property). A number is represented by the text `Number.prototype.toString` gives for it
(`"0"` for both zeros, `"1e+21"`, `"0.5"`, ...), which is all the scripts observe of it. -/
inductive JsVal where
  | undefined
  | null
  | bool (b : Bool)
  | num (text : String)
  | str (s : String)
  | arr (items : List JsVal)
  | obj (fields : List (String × JsVal))

/-- ToBoolean: a number is falsy when it is a zero or `NaN`. -/
def JsVal.truthy : JsVal → Bool
  | .undefined => false
  | .null => false
  | .bool b => b
  | .num text => text != "0" && text != "NaN"
  | .str s => s != ""
  | .arr _ => true
  | .obj _ => true

/-- Own property of a parsed object: `JSON.parse` keeps the last of duplicated keys. -/
def lookupLast (key : String) : List (String × JsVal) → Option JsVal
  | [] => none
  | (k, v) :: rest =>
    match lookupLast key rest with
    | some later => some later
    | none => if k == key then some v else none

/-- Property read `v.key` for the keys the scripts read (none of which is a built-in
property of strings, numbers, booleans or arrays): `null.key` throws, an absent key reads
`undefined`. -/
def JsVal.getProp (v : JsVal) (key : String) : Except JsError JsVal :=
  match v with
  | .undefined =>
    .error (typeError ("Cannot read properties of undefined (reading '" ++ key ++ "')"))
  | .null => .error (typeError ("Cannot read properties of null (reading '" ++ key ++ "')"))
  | .obj fields => .ok ((lookupLast key fields).getD .undefined)
  | _ => .ok .undefined

/-- Strict equality with a string literal: `v === s`. -/
def JsVal.isStr (v : JsVal) (s : String) : Bool :=
  match v with
  | .str t => t == s
  | _ => false

mutual
/-- ToString, as applied by string concatenation and template literals. A parsed object
whose own `toString` key shadows `Object.prototype.toString` cannot be converted. -/
def JsVal.toStr : JsVal → Except JsError String
  | .undefined => .ok "undefined"
  | .null => .ok "null"
  | .bool b => .ok (if b then "true" else "false")
  | .num text => .ok text
  | .str s => .ok s
  | .arr items => JsVal.joinStr items
  | .obj fields =>
    if fields.any (fun kv => kv.1 == "toString") then
      .error (typeError "Cannot convert object to primitive value")
    else .ok "[object Object]"
/-- The comma join of `Array.prototype.toString`. -/
def JsVal.joinStr : List JsVal → Except JsError String
  | [] => .ok ""
  | [x] => JsVal.elemStr x
  | x :: y :: rest =>
    match JsVal.elemStr x, JsVal.joinStr (y :: rest) with
    | .ok a, .ok b => .ok (a ++ "," ++ b)
    | .error e, _ => .error e
    | .ok _, .error e => .error e
/-- One element of a join: `null` and `undefined` print as the empty string. -/
def JsVal.elemStr : JsVal → Except JsError String
  | .undefined => .ok ""
  | .null => .ok ""
  | .bool b => .ok (if b then "true" else "false")
  | .num text => .ok text
  | .str s => .ok s
  | .arr items => JsVal.joinStr items
  | .obj fields =>
    if fields.any (fun kv => kv.1 == "toString") then
      .error (typeError "Cannot convert object to primitive value")
    else .ok "[object Object]"
end

/-! ## Strings -/

/-- Code points removed by `String.prototype.trim`: WhiteSpace and LineTerminator. -/
def isJsWhitespace (c : Char) : Bool :=
  let n := c.toNat
  n == 0x09 || n == 0x0A || n == 0x0B || n == 0x0C || n == 0x0D || n == 0x20 ||
  n == 0xA0 || n == 0x1680 || (0x2000 ≤ n && n ≤ 0x200A) || n == 0x2028 ||
  n == 0x2029 || n == 0x202F || n == 0x205F || n == 0x3000 || n == 0xFEFF

/-- Trim on a list of characters. -/
def trimChars (cs : List Char) : List Char :=
  ((cs.dropWhile isJsWhitespace).reverse.dropWhile isJsWhitespace).reverse

/-- The method `String.prototype.trim`. -/
def jsTrim (s : String) : String := ⟨trimChars s.data⟩

/-- The method `charAt(0).toUpperCase() + slice(1)` of `capitalize(word)`; upper-casing
is the ASCII one, exact for the media kinds `image`, `audio`, `video`. -/
def capitalize (word : String) : String :=
  match word.data with
  | [] => ""
  | c :: rest => ⟨c.toUpper :: rest⟩

/-! ## The browser -/

/-- A local file (an entry of a `FileList`). -/
structure File where
  name : String
deriving DecidableEq, Repr

/-- A binary response body. -/
structure Blob where
  bytes : List Nat
deriving DecidableEq, Repr

/-- A node inserted into a rendering surface. -/
inductive Node where
  | html (markup : String)
  | div (innerHTML : String) (message : Option String)
  | img (src maxWidth : String)
  | audio (src : String)
  | video (src maxWidth : String)
deriving DecidableEq, Repr

/-- A document element, with the properties the scripts touch. `files` and `value` are
`none` on elements that lack the property (it reads `undefined`). -/
structure Element where
  id : String
  className : String
  display : String
  files : Option (List File)
  value : Option String
  content : List Node
deriving DecidableEq, Repr

/-- One entry of a multipart form. -/
inductive FormValue where
  | file (f : File)
  | text (s : String)
deriving DecidableEq, Repr

/-- The synthesized download anchor. -/
structure Anchor where
  href : String
  download : String
deriving DecidableEq, Repr

/-- Observable effects, in the order they happen. `call` records that a function of the
script was invoked. -/
inductive Effect where
  | alert (msg : String)
  | fetch (url method : String) (body : List (String × FormValue))
  | appendAnchor (a : Anchor)
  | clickAnchor (a : Anchor)
  | removeAnchor (a : Anchor)
  | consoleError (label : String) (e : JsError)
  | call (fn : String)
  | clickInput (id : String)
  | readAsDataURL (f : File) (previewId type : String)
  | uncaught (e : JsError)
  | preventDefault
  | stopPropagation
deriving DecidableEq, Repr

/-- What a listener registered by `setupFileUpload` does. -/
inductive Action where
  | suppress
  | highlight (prevent : Bool)
  | unhighlight
  | browse (fileInputId : String)
  | drop (prevent : Bool) (fileInputId previewId type : String)
  | change (fileInputId previewId type : String)
deriving DecidableEq, Repr

/-- A registered event listener: target element, event name, action. -/
structure Listener where
  target : String
  event : String
  action : Action
deriving DecidableEq, Repr

/-- The state of the page. -/
structure World where
  page : List Element
  listeners : List Listener
  log : List Effect
deriving DecidableEq, Repr

/-- How a call ended: returned (for an `async` function: its promise resolved), threw
(its promise rejected), or a loop of the model exhausted its fuel. -/
inductive Completion where
  | done
  | threw (e : JsError)
  | outOfFuel
deriving DecidableEq, Repr

/-- What `response.json()` / `response.blob()` settle to, with the status line. -/
structure Response where
  ok : Bool
  statusText : String
  json : Except JsError JsVal
  blob : Except JsError Blob

/-- What `fetch` settles to. -/
inductive FetchOutcome where
  | failed (e : JsError)
  | response (r : Response)

/-- Append one effect to the log. -/
def World.emit (w : World) (e : Effect) : World :=
  { w with log := w.log ++ [e] }

/-- The call `document.getElementById(id)`: the first element in document order. -/
def getElementById (page : List Element) (id : String) : Option Element :=
  if id = "" then none else page.find? (fun e => e.id == id)

/-- Apply `f` to the first element satisfying `p`. -/
def modifyFirst (p : Element → Bool) (f : Element → Element) : List Element → List Element
  | [] => []
  | e :: rest => if p e then f e :: rest else e :: modifyFirst p f rest

/-- Mutate the element a previous `getElementById(id)` returned. -/
def World.update (w : World) (id : String) (f : Element → Element) : World :=
  { w with page := modifyFirst (fun e => e.id == id) f w.page }

/-- The alerts shown so far. -/
def alerts (log : List Effect) : List String :=
  log.filterMap (fun e => match e with | .alert m => some m | _ => none)

/-- The network requests issued so far. -/
def requests (log : List Effect) : List Effect :=
  log.filter (fun e => match e with | .fetch _ _ _ => true | _ => false)

/-- The anchors clicked so far (downloads triggered). -/
def downloads (log : List Effect) : List Anchor :=
  log.filterMap (fun e => match e with | .clickAnchor a => some a | _ => none)

/-- The invocations of script functions recorded so far. -/
def calls (log : List Effect) : List String :=
  log.filterMap (fun e => match e with | .call fn => some fn | _ => none)

/-- The three statements `appendChild(a); a.click(); a.remove()`. -/
def triggerDownload (a : Anchor) (w : World) : World :=
  ((w.emit (.appendAnchor a)).emit (.clickAnchor a)).emit (.removeAnchor a)

/-! ## Code shared by both variants (only the line wrapping differs between the files) -/

/-- The validation notice of `encodeFile`, the same text in both files. -/
def validationNotice : String := "Please select a file and enter a secret message."

/-! ### Class names -/

/-- ASCII whitespace, the separators of a `class` attribute. -/
def isAsciiWhitespace (c : Char) : Bool :=
  c == ' ' || c == '\t' || c == '\n' || c == '\x0c' || c == '\r'

/-- Split at every separator (empty pieces included). -/
def splitTokens : List Char → List (List Char)
  | [] => [[]]
  | c :: cs =>
    if isAsciiWhitespace c then [] :: splitTokens cs
    else
      match splitTokens cs with
      | [] => [[c]]
      | t :: ts => (c :: t) :: ts

/-- The class tokens of a `className`. -/
def classTokens (className : String) : List (List Char) :=
  (splitTokens className.data).filter (fun t => !t.isEmpty)

/-- Membership of an element in `getElementsByClassName(name)`, and
`classList.contains(name)`. -/
def hasClass (name : String) (e : Element) : Bool :=
  (classTokens e.className).contains name.data

/-- The method `String.prototype.replace` with a string pattern: only the first
occurrence is replaced. -/
def replaceFirstChars (pat rep : List Char) : List Char → List Char
  | [] => if pat.isEmpty then rep else []
  | c :: cs =>
    if pat.isPrefixOf (c :: cs) then rep ++ (c :: cs).drop pat.length
    else c :: replaceFirstChars pat rep cs

/-- The call `s.replace(pat, rep)` for a replacement text without `$`. -/
def replaceFirst (pat rep s : String) : String := ⟨replaceFirstChars pat.data rep.data s.data⟩

/-- Whether `pat` occurs in the character list. -/
def containsChars (pat : List Char) : List Char → Bool
  | [] => pat.isEmpty
  | c :: cs => pat.isPrefixOf (c :: cs) || containsChars pat cs

/-- The serialisation of a token set after `classList.add` / `classList.remove`. -/
def serializeTokens (ts : List (List Char)) : String := ⟨List.intercalate [' '] ts⟩

/-- The call `el.classList.add(token)`. -/
def classListAdd (token : String) (el : Element) : Element :=
  let ts := (classTokens el.className).eraseDups
  { el with className := serializeTokens (if ts.contains token.data then ts else ts ++ [token.data]) }

/-- The call `el.classList.remove(token)`. -/
def classListRemove (token : String) (el : Element) : Element :=
  let ts := (classTokens el.className).eraseDups
  { el with className := serializeTokens (ts.filter (fun t => t != token.data)) }

/-! ### Tabs -/

/-- Apply `f` to the element at index `i` of the live collection of the elements
satisfying `p`; `none` when the collection has no index `i`. -/
def modifyNthMatch (p : Element → Bool) (f : Element → Element) :
    Nat → List Element → Option (List Element)
  | _, [] => none
  | i, e :: rest =>
    if p e then
      match i with
      | 0 => some (f e :: rest)
      | j + 1 => (modifyNthMatch p f j rest).map (fun r => e :: r)
    else (modifyNthMatch p f i rest).map (fun r => e :: r)

/-- The loop `for (let i = 0; i < coll.length; i++) f(coll[i])` over a live
`HTMLCollection`: membership and length are re-read at every step. `none`: out of
fuel. -/
def forEachLive (p : Element → Bool) (f : Element → Element) :
    Nat → Nat → List Element → Option (List Element)
  | 0, _, _ => none
  | fuel + 1, i, page =>
    match modifyNthMatch p f i page with
    | none => some page
    | some page1 => forEachLive p f fuel (i + 1) page1

/-- The statement `tabcontent[i].style.display = "none"`. -/
def hidePanel (e : Element) : Element := { e with display := "none" }

/-- The statement `tablinks[i].className = tablinks[i].className.replace(" active", "")`. -/
def deactivate (e : Element) : Element :=
  { e with className := replaceFirst " active" "" e.className }

/-- The statement `evt.currentTarget.className += " active"`. -/
def activate (e : Element) : Element := { e with className := e.className ++ " active" }

/-- The function `openTab(evt, tabName)`; `currentTarget` is the position in the
document of the element `evt.currentTarget`. -/
def openTab (currentTarget : Nat) (tabName : String) (w : World) : World × Completion :=
  match forEachLive (hasClass "tabcontent") hidePanel (w.page.length + 1) 0 w.page with
  | none => (w, .outOfFuel)
  | some page1 =>
    match forEachLive (hasClass "tablinks") deactivate (page1.length + 1) 0 page1 with
    | none => ({ w with page := page1 }, .outOfFuel)
    | some page2 =>
      match getElementById page2 tabName with
      | none =>
        ({ w with page := page2 },
          .threw (typeError "Cannot read properties of null (reading 'style')"))
      | some _ =>
        let page3 := modifyFirst (fun e => e.id == tabName) (fun e => { e with display := "block" }) page2
        if currentTarget < page3.length then
          ({ w with page := page3.modify activate currentTarget }, .done)
        else
          ({ w with page := page3 },
            .threw (typeError "Cannot read properties of null (reading 'className')"))

/-- Positions of the elements satisfying `q`. -/
def indicesWhere (q : Element → Bool) : List Element → List Nat
  | [] => []
  | e :: rest => (if q e then [0] else []) ++ (indicesWhere q rest).map (fun i => i + 1)

/-- Position of the first element satisfying `q`. -/
def firstIndex (q : Element → Bool) : List Element → Option Nat
  | [] => none
  | e :: rest => if q e then some 0 else (firstIndex q rest).map (fun i => i + 1)

/-- Positions of the panels that are displayed. -/
def visiblePanels (page : List Element) : List Nat :=
  indicesWhere (fun e => hasClass "tabcontent" e && e.display != "none") page

/-- Positions of the triggers carrying the class `active`. -/
def activeTriggers (page : List Element) : List Nat :=
  indicesWhere (fun e => hasClass "tablinks" e && hasClass "active" e) page

/-- A class name in the form `openTab` maintains: a text without `active` in it,
optionally followed by the marker `" active"`. -/
def markerForm (className : String) : Prop :=
  ∃ base : String, containsChars "active".data base.data = false ∧
    (className = base ∨ className = base ++ " active")

/-! ### Upload zones -/

/-- A dispatched DOM event; `dataTransfer` holds `e.dataTransfer.files` (`none` when
the event has no `dataTransfer`). -/
structure DomEvent where
  type : String
  dataTransfer : Option (List File)
deriving DecidableEq, Repr

/-- The function `handleFileSelect(fileInput, preview, type)` up to
`reader.readAsDataURL(file)`; the elements are named by their ids. -/
def handleFileSelect (fileInputId previewId type : String) (w : World) : World × Completion :=
  match getElementById w.page fileInputId with
  | none => (w, .threw (typeError "Cannot read properties of null (reading 'files')"))
  | some fileInput =>
    match fileInput.files with
    | none => (w, .threw (typeError "Cannot read properties of undefined (reading '0')"))
    | some [] => (w, .done)
    | some (file :: _) => (w.emit (.readAsDataURL file previewId type), .done)

/-- The callback `reader.onload` of `handleFileSelect`; `result` is the data URL. -/
def readerOnload (previewId type result : String) (w : World) : World :=
  w.update previewId (fun preview =>
    { preview with content :=
        if type = "image" then [.img result "150px"]
        else if type = "audio" then [.audio result]
        else if type = "video" then [.video result "200px"]
        else [] })

/-- Run one listener on `target` for the event `evt`. -/
def runAction (target : String) (evt : DomEvent) (w : World) : Action → World × Completion
  | .suppress => ((w.emit .preventDefault).emit .stopPropagation, .done)
  | .highlight prevent =>
    ((if prevent then w.emit .preventDefault else w).update target (classListAdd "drag-over"),
      .done)
  | .unhighlight => (w.update target (classListRemove "drag-over"), .done)
  | .browse fileInputId => (w.emit (.clickInput fileInputId), .done)
  | .drop prevent fileInputId previewId type =>
    let w1 := if prevent then w.emit .preventDefault else w
    match evt.dataTransfer with
    | none => (w1, .threw (typeError "Cannot read properties of null (reading 'files')"))
    | some [] => (w1, .done)
    | some (f :: fs) =>
      handleFileSelect fileInputId previewId type
        (w1.update fileInputId (fun el => { el with files := some (f :: fs) }))
  | .change fileInputId previewId type => handleFileSelect fileInputId previewId type w

/-- Run the listeners in registration order; an exception thrown by one is reported
and does not stop the others. -/
def runListeners (target : String) (evt : DomEvent) : List Listener → World → World
  | [], w => w
  | l :: rest, w =>
    if l.target == target && l.event == evt.type then
      match runAction target evt w l.action with
      | (w1, .threw e) => runListeners target evt rest (w1.emit (.uncaught e))
      | (w1, _) => runListeners target evt rest w1
    else runListeners target evt rest w

/-- Dispatch `evt` at the element `target`. -/
def dispatch (target : String) (evt : DomEvent) (w : World) : World :=
  runListeners target evt w.listeners w

/-- Register listeners, in order. -/
def World.listen (w : World) (ls : List Listener) : World :=
  { w with listeners := w.listeners ++ ls }

namespace UrlVariant

/-- The function `setupFileUpload(uploadAreaId, fileInputId, previewId, type)`. -/
def setupFileUpload (uploadAreaId fileInputId previewId type : String) (w : World) : World :=
  match getElementById w.page uploadAreaId, getElementById w.page fileInputId,
      getElementById w.page previewId with
  | some _, some _, some _ =>
    w.listen
      [ ⟨uploadAreaId, "dragenter", .suppress⟩, ⟨uploadAreaId, "dragover", .suppress⟩,
        ⟨uploadAreaId, "dragleave", .suppress⟩, ⟨uploadAreaId, "drop", .suppress⟩,
        ⟨uploadAreaId, "dragenter", .highlight false⟩,
        ⟨uploadAreaId, "dragover", .highlight false⟩,
        ⟨uploadAreaId, "dragleave", .unhighlight⟩, ⟨uploadAreaId, "drop", .unhighlight⟩,
        ⟨uploadAreaId, "click", .browse fileInputId⟩,
        ⟨uploadAreaId, "drop", .drop false fileInputId previewId type⟩,
        ⟨fileInputId, "change", .change fileInputId previewId type⟩ ]
  | _, _, _ => w

end UrlVariant

namespace BinaryVariant

/-- The function `setupFileUpload(uploadAreaId, fileInputId, previewId, type)`, with
`setupDragHighlight(uploadArea)` inlined. -/
def setupFileUpload (uploadAreaId fileInputId previewId type : String) (w : World) : World :=
  match getElementById w.page uploadAreaId, getElementById w.page fileInputId,
      getElementById w.page previewId with
  | some _, some _, some _ =>
    w.listen
      [ ⟨uploadAreaId, "click", .browse fileInputId⟩,
        ⟨uploadAreaId, "dragover", .highlight true⟩,
        ⟨uploadAreaId, "dragleave", .unhighlight⟩, ⟨uploadAreaId, "drop", .unhighlight⟩,
        ⟨uploadAreaId, "drop", .drop true fileInputId previewId type⟩,
        ⟨fileInputId, "change", .change fileInputId previewId type⟩ ]
  | _, _, _ => w

/-- The extension chosen by `mode === "image" ? "png" : mode === "audio" ? "wav" : "avi"`. -/
def encodeExtension (mode : String) : String :=
  if mode = "image" then "png" else if mode = "audio" then "wav" else "avi"

/-- The function `encodeFile(mode)`; `enc` is what the request settles to and
`objectUrl` the URL `window.URL.createObjectURL` mints for a blob. -/
def encodeFile (mode : String) (enc : FetchOutcome) (objectUrl : Blob → String) (w : World) :
    World × Completion :=
  match getElementById w.page ("secretMessage" ++ capitalize mode) with
  | none => (w, .threw (typeError "Cannot read properties of null (reading 'value')"))
  | some msgInput =>
    match getElementById w.page ("encode" ++ capitalize mode) with
    | none => (w.emit (.alert validationNotice), .done)
    | some fileInput =>
      match fileInput.files with
      | none =>
        (w, .threw (typeError "Cannot read properties of undefined (reading 'length')"))
      | some [] => (w.emit (.alert validationNotice), .done)
      | some (file :: _) =>
        match msgInput.value with
        | none => (w.emit (.alert validationNotice), .done)
        | some secretMessage =>
          if secretMessage = "" then (w.emit (.alert validationNotice), .done)
          else
            let formData :=
              [("file", FormValue.file file), ("secret_message", .text secretMessage)]
            let w1 := w.emit (.fetch ("/encode/" ++ mode) "POST" formData)
            match enc with
            | .failed e => (w1, .threw e)
            | .response response =>
              if !response.ok then (w1.emit (.alert "Error encoding file"), .done)
              else
                match response.blob with
                | .error e => (w1, .threw e)
                | .ok blob =>
                  let a : Anchor :=
                    ⟨objectUrl blob, "stego_" ++ mode ++ "." ++ encodeExtension mode⟩
                  (triggerDownload a w1, .done)

end BinaryVariant

namespace UrlVariant

/-- The heading `updateLibrary` writes before re-rendering. -/
def libraryHeading : String := "<h2>Encoded/Decoded Files</h2>"

/-- The markup assigned to `div.innerHTML` for one library entry (the `if / else if`
chain on `f.file_type`); an unrecognised kind leaves the `div` empty. -/
def entryMarkup (f : JsVal) : Except JsError String := do
  if (← f.getProp "file_type").isStr "image" then
    let path ← (← f.getProp "file_path").toStr
    pure ("<img src=\"" ++ path ++ "\" style=\"max-width:150px;\">")
  else if (← f.getProp "file_type").isStr "audio" then
    let path ← (← f.getProp "file_path").toStr
    pure ("<audio controls src=\"" ++ path ++ "\"></audio>")
  else if (← f.getProp "file_type").isStr "video" then
    let path ← (← f.getProp "file_path").toStr
    pure ("<video controls width=\"200\" src=\"" ++ path ++ "\"></video>")
  else pure ""

/-- The markup of the optional message child: `f.operation === "decode" && f.message`. -/
def entryMessage (f : JsVal) : Except JsError (Option String) := do
  if (← f.getProp "operation").isStr "decode" then
    let message ← f.getProp "message"
    if message.truthy then
      let text ← message.toStr
      pure (some ("<strong>Decoded Message:</strong> " ++ text))
    else pure none
  else pure none

/-- The body of the `forEach` callback up to `libDiv.appendChild(div)`. -/
def renderEntry (f : JsVal) : Except JsError Node := do
  let markup ← entryMarkup f
  let message ← entryMessage f
  pure (.div markup message)

/-- The loop `files.forEach(f => ...)`: nodes are appended one by one, a throwing callback
aborts the loop and leaves what was appended so far. -/
def renderEntries : List JsVal → World → World × Except JsError Unit
  | [], w => (w, .ok ())
  | f :: rest, w =>
    match renderEntry f with
    | .error e => (w, .error e)
    | .ok node =>
      renderEntries rest
        (w.update "file-links" (fun el => { el with content := el.content ++ [node] }))

/-- The `try` block of `updateLibrary`, after the request has been issued. -/
def updateLibraryTry (lib : FetchOutcome) (w : World) : World × Except JsError Unit :=
  match lib with
  | .failed e => (w, .error e)
  | .response res =>
    match res.json with
    | .error e => (w, .error e)
    | .ok files =>
      let w1 := w.update "file-links" (fun el => { el with content := [.html libraryHeading] })
      match files with
      | .arr items => renderEntries items w1
      | .null => (w1, .error (typeError "Cannot read properties of null (reading 'forEach')"))
      | _ => (w1, .error (typeError "files.forEach is not a function"))

/-- The function `updateLibrary()`; `lib` is what `fetch("/api/library")` settles to. -/
def updateLibrary (lib : FetchOutcome) (w : World) : World × Completion :=
  match getElementById w.page "file-links" with
  | none => (w, .done)
  | some _ =>
    match updateLibraryTry lib (w.emit (.fetch "/api/library" "GET" [])) with
    | (w1, .ok _) => (w1, .done)
    | (w1, .error e) => (w1.emit (.consoleError "Library update failed:" e), .done)

/-- The un-awaited call `updateLibrary();` at the end of a submitter. -/
def refreshLibrary (lib : FetchOutcome) (w : World) : World :=
  (updateLibrary lib (w.emit (.call "updateLibrary"))).1

/-- The extension chosen by `mode === "image" ? "png" : mode === "audio" ? "wav" : "mp4"`. -/
def encodeExtension (mode : String) : String :=
  if mode = "image" then "png" else if mode = "audio" then "wav" else "mp4"

/-- The operand `data.error || response.statusText`, converted for concatenation. -/
def failureText (data : JsVal) (response : Response) : Except JsError String := do
  let error ← data.getProp "error"
  if error.truthy then error.toStr else pure response.statusText

/-- The condition `!response.ok || data.error`. -/
def failed (data : JsVal) (response : Response) : Except JsError Bool :=
  if !response.ok then pure true else do
    let error ← data.getProp "error"
    pure error.truthy

/-- The `try` block of `encodeFile`, after the request has been issued. -/
def encodeFileTry (mode : String) (enc lib : FetchOutcome) (w : World) :
    World × Except JsError Unit :=
  match enc with
  | .failed e => (w, .error e)
  | .response response =>
    match response.json with
    | .error e => (w, .error e)
    | .ok data =>
      match failed data response with
      | .error e => (w, .error e)
      | .ok true =>
        match failureText data response with
        | .error e => (w, .error e)
        | .ok text => (w.emit (.alert ("Encode failed: " ++ text)), .ok ())
      | .ok false =>
        match data.getProp "stego_file" with
        | .error e => (w, .error e)
        | .ok stego =>
          if stego.truthy then
            match stego.toStr with
            | .error e => (w, .error e)
            | .ok href =>
              let a : Anchor := ⟨href, "encoded_" ++ mode ++ "." ++ encodeExtension mode⟩
              (refreshLibrary lib (triggerDownload a w), .ok ())
          else (refreshLibrary lib w, .ok ())

/-- The function `encodeFile(mode, fileInputId, msgInputId)`; `enc` is what the encode
request settles to, `lib` what the library request of the refresh settles to. -/
def encodeFile (mode fileInputId msgInputId : String) (enc lib : FetchOutcome) (w : World) :
    World × Completion :=
  match getElementById w.page fileInputId with
  | none => (w, .threw (typeError "Cannot read properties of null (reading 'files')"))
  | some fileInput =>
    match fileInput.files with
    | none => (w, .threw (typeError "Cannot read properties of undefined (reading 'length')"))
    | some [] => (w.emit (.alert validationNotice), .done)
    | some (file :: _) =>
      match getElementById w.page msgInputId with
      | none => (w, .threw (typeError "Cannot read properties of null (reading 'value')"))
      | some msgInput =>
        match msgInput.value with
        | none =>
          (w, .threw (typeError "Cannot read properties of undefined (reading 'trim')"))
        | some value =>
          if jsTrim value = "" then (w.emit (.alert validationNotice), .done)
          else
            let formData := [("cover", FormValue.file file), ("message", .text (jsTrim value))]
            match encodeFileTry mode enc lib
                (w.emit (.fetch ("/api/encode_" ++ mode) "POST" formData)) with
            | (w1, .ok _) => (w1, .done)
            | (w1, .error e) => (w1.emit (.alert ("Encode error: " ++ e.message)), .done)

/-- The statements of `decodeFile` after the error check: optional download, the
two-mode output, then the refresh. `now` is `Date.now()`. -/
def decodeSuccess (mode outputId : String) (output : Option Element) (now : Nat) (data : JsVal)
    (lib : FetchOutcome) (w : World) : World × Except JsError Unit :=
  match data.getProp "decoded_file" with
  | .error e => (w, .error e)
  | .ok decoded =>
    match (if decoded.truthy then decoded.toStr.map some else .ok none) with
    | .error e => (w, .error e)
    | .ok href =>
      let w1 :=
        match href with
        | some h => triggerDownload ⟨h, "decoded_" ++ mode ++ "_" ++ toString now ++ ".txt"⟩ w
        | none => w
      match data.getProp "data" with
      | .error e => (w1, .error e)
      | .ok message =>
        match output with
        | some _ =>
          match (if message.truthy then message.toStr else .ok "") with
          | .error e => (w1, .error e)
          | .ok text =>
            (refreshLibrary lib (w1.update outputId (fun el => { el with value := some text })),
              .ok ())
        | none =>
          if message.truthy then
            match message.toStr with
            | .error e => (w1, .error e)
            | .ok text => (refreshLibrary lib (w1.emit (.alert ("Decoded message: " ++ text))), .ok ())
          else (refreshLibrary lib w1, .ok ())

/-- The `try` block of `decodeFile`, after the request has been issued. -/
def decodeFileTry (mode outputId : String) (output : Option Element) (now : Nat)
    (dec lib : FetchOutcome) (w : World) : World × Except JsError Unit :=
  match dec with
  | .failed e => (w, .error e)
  | .response response =>
    match response.json with
    | .error e => (w, .error e)
    | .ok data =>
      match failed data response with
      | .error e => (w, .error e)
      | .ok true =>
        match failureText data response with
        | .error e => (w, .error e)
        | .ok text => (w.emit (.alert ("Decode failed: " ++ text)), .ok ())
      | .ok false => decodeSuccess mode outputId output now data lib w

/-- The function `decodeFile(mode, fileInputId, outputId)`. Assigning `output.value`
stores the string as is (the value sanitization of the element is not modelled). -/
def decodeFile (mode fileInputId outputId : String) (now : Nat) (dec lib : FetchOutcome)
    (w : World) : World × Completion :=
  match getElementById w.page fileInputId with
  | none => (w, .threw (typeError "Cannot read properties of null (reading 'files')"))
  | some fileInput =>
    match fileInput.files with
    | none => (w, .threw (typeError "Cannot read properties of undefined (reading 'length')"))
    | some [] => (w.emit (.alert "Please select a stego file to decode."), .done)
    | some (file :: _) =>
      match decodeFileTry mode outputId (getElementById w.page outputId) now dec lib
          (w.emit (.fetch ("/api/decode_" ++ mode) "POST" [("stego", .file file)])) with
      | (w1, .ok _) => (w1, .done)
      | (w1, .error e) => (w1.emit (.alert ("Decode error: " ++ e.message)), .done)

end UrlVariant

end StegoClient

/-! ## Sample pages -/

namespace StegoClient

/-- An element with the given id and nothing else set. -/
def blank (id : String) : Element := ⟨id, "", "", none, none, []⟩

/-- A file input holding `files`. -/
def fileInputWith (id : String) (files : List File) : Element :=
  { blank id with files := some files }

/-- A text field holding `value`. -/
def textFieldWith (id value : String) : Element := { blank id with value := some value }

/-- A world over `page` with no listeners and an empty log. -/
def worldOf (page : List Element) : World := ⟨page, [], []⟩

/-- A response whose body is the JSON text of `data`. -/
def jsonResponse (ok : Bool) (statusText : String) (data : JsVal) : Response :=
  ⟨ok, statusText, .ok data, .ok ⟨[]⟩⟩

/-- A response whose body is binary, not JSON. -/
def blobResponse (ok : Bool) (statusText : String) (b : Blob) : Response :=
  ⟨ok, statusText, .error ⟨"SyntaxError", "Unexpected token"⟩, .ok b⟩

/-- A rejected fetch. -/
def networkDown : FetchOutcome := .failed ⟨"TypeError", "Failed to fetch"⟩

/-- The URL minted for a blob in the examples. -/
def sampleObjectUrl (_ : Blob) : String := "blob:1"

/-- An encode panel of the URL variant with no file chosen. -/
def emptyUrlPanel : World :=
  worldOf [fileInputWith "encodeImageFile" [], textFieldWith "encodeImageMsg" "hello"]

/-- An encode panel of the binary variant with no file chosen. -/
def emptyBinaryPanel : World :=
  worldOf [fileInputWith "encodeImage" [], textFieldWith "secretMessageImage" "hello"]

/-- The cover file of the examples. -/
def cover : File := ⟨"cover.png"⟩

/-- An image encode panel of the URL variant with `cover` chosen and `value` typed. -/
def urlPanel (value : String) : World :=
  worldOf [fileInputWith "encodeImageFile" [cover], textFieldWith "encodeImageMsg" value]

/-- A successful encode response of the URL variant for an image. -/
def stegoReady : Response :=
  jsonResponse true "OK" (.obj [("stego_file", .str "/static/out/stego.png")])

/-- An image encode panel of the binary variant with `cover` chosen and `value` typed. -/
def binaryPanel (value : String) : World :=
  worldOf [fileInputWith "encodeImage" [cover], textFieldWith "secretMessageImage" value]

/-- The stego image returned by the binary variant in the examples. -/
def stegoBlob : Blob := ⟨[137, 80, 78, 71]⟩

/-- A 200 response whose body carries an empty `error` field next to the artifact. -/
def emptyErrorField : Response :=
  jsonResponse true "OK" (.obj [("error", .str ""), ("stego_file", .str "/static/out/stego.png")])

/-- A 500 response whose body is an HTML error page, which `response.json()` rejects. -/
def htmlErrorPage : Response :=
  ⟨false, "INTERNAL SERVER ERROR", .error ⟨"SyntaxError", "Unexpected token '<'"⟩, .ok ⟨[60]⟩⟩

/-- A 400 response whose error field is an object with its own `toString` key. -/
def unprintableError : Response :=
  jsonResponse false "BAD REQUEST" (.obj [("error", .obj [("toString", .num "1")])])

/-- A 400 response whose body names the error. -/
def messageTooLong : Response :=
  jsonResponse false "BAD REQUEST" (.obj [("error", .str "Message too long")])

/-- The effects added by a call that started in `w` and ended in `w1`. -/
def newEffects (w w1 : World) : List Effect := w1.log.drop w.log.length

/-- An image decode panel of the URL variant, with an output field, `stego.png` chosen. -/
def decodePanel : World :=
  worldOf [fileInputWith "decodeImageFile" [⟨"stego.png"⟩], textFieldWith "decodeImageOutput" "old"]

/-- The same panel on a page without the output field. -/
def decodePanelBare : World := worldOf [fileInputWith "decodeImageFile" [⟨"stego.png"⟩]]

/-- A successful decode response carrying the recovered text. -/
def decoded (message : String) : Response := jsonResponse true "OK" (.obj [("data", .str message)])

/-- A page whose library shows three entries. -/
def threeEntryLibrary : World :=
  worldOf [{ blank "file-links" with content :=
    [.html UrlVariant.libraryHeading,
      .div "<img src=\"/static/out/a.png\" style=\"max-width:150px;\">" none,
      .div "<audio controls src=\"/static/out/b.wav\"></audio>" none,
      .div "" (some "<strong>Decoded Message:</strong> hi")] }]

/-- A 500 response whose JSON body is an error object, not a sequence of entries. -/
def libraryUnavailable : Response :=
  jsonResponse false "INTERNAL SERVER ERROR" (.obj [("error", .str "database is locked")])

/-- What the library surface shows. -/
def renderedLibrary (w : World) : Option (List Node) :=
  (getElementById w.page "file-links").map (fun el => el.content)

/-- The files handed to `reader.readAsDataURL`, with the preview surface and media kind
of the call: one entry per preview render started. -/
def previewReads (log : List Effect) : List (File × String × String) :=
  log.filterMap (fun e => match e with | .readAsDataURL f p t => some (f, p, t) | _ => none)

/-- The files attached to the file input `id`. -/
def attachedFiles (w : World) (id : String) : Option (List File) :=
  (getElementById w.page id).bind (fun el => el.files)

/-- An image upload slot: zone, empty file input, preview surface. -/
def uploadSlot : World :=
  worldOf [blank "imgEncodeUpload", fileInputWith "encodeImageFile" [], blank "imgEncodePreview"]

/-- A page with two image slots, the first of them already bound (URL variant). -/
def boundBefore : World :=
  UrlVariant.setupFileUpload "imgEncodeUpload" "encodeImageFile" "imgEncodePreview" "image"
    (worldOf [blank "imgEncodeUpload", fileInputWith "encodeImageFile" [],
      blank "imgEncodePreview", blank "imgDecodeUpload", fileInputWith "decodeImageFile" [],
      blank "imgDecodePreview"])

/-- A listener bound to another element after the slots (here: the browse listener of
another zone). -/
def boundAfter : List Listener := [⟨"audEncodeUpload", "click", .browse "encodeAudioFile"⟩]

/-- Two dropped files. -/
def firstDropped : File := ⟨"first.png"⟩

/-- The second of the two dropped files. -/
def secondDropped : File := ⟨"second.png"⟩

/-- A `drop` event carrying the two files. -/
def dropTwo : DomEvent := ⟨"drop", some [firstDropped, secondDropped]⟩

/-! ### Predicates used by the proofs -/

/-- Effects a library refresh can add: its one request and its one diagnostic. -/
def RefreshOnly (tail : List Effect) : Prop :=
  ∀ e ∈ tail, e = .fetch "/api/library" "GET" [] ∨ ∃ label err, e = .consoleError label err

/-- Requests other than the library refresh are absent. -/
def NoSubmit (tail : List Effect) : Prop :=
  ∀ url method body, Effect.fetch url method body ∈ tail →
    url = "/api/library" ∧ method = "GET" ∧ body = []

/-- Lookups in `q` find the `value` they find in `p`. -/
def SameValues (p q : List Element) : Prop :=
  ∀ id, (getElementById q id).map (fun e => e.value) = (getElementById p id).map (fun e => e.value)

/-! ### Devices for the proofs about `openTab` -/

/-- Apply `f` to the elements satisfying `p` whose index in the collection is at least
`i` (what remains to be done by a loop standing at index `i`). -/
def mapFrom (p : Element → Bool) (f : Element → Element) : Nat → List Element → List Element
  | _, [] => []
  | i, e :: rest =>
    if p e then
      match i with
      | 0 => f e :: mapFrom p f 0 rest
      | j + 1 => e :: mapFrom p f j rest
    else e :: mapFrom p f i rest

/-- Triggers carry class names in marker form. -/
def WellMarked (page : List Element) : Prop :=
  ∀ e ∈ page, hasClass "tablinks" e = true → markerForm e.className

/-- One step of the first loop of `openTab`, for an arbitrary element. -/
def hideIfPanel (e : Element) : Element := if hasClass "tabcontent" e then hidePanel e else e

/-- One step of the second loop of `openTab`, for an arbitrary element. -/
def deactivateIfTrigger (e : Element) : Element :=
  if hasClass "tablinks" e then deactivate e else e

/-- What one `openTab` call whose panel is at position `k` and whose trigger is at
position `t` does to the element at position `i`. -/
def afterOpenTab (t k i : Nat) (e : Element) : Element :=
  let e2 := deactivateIfTrigger (hideIfPanel e)
  let e3 := if k = i then { e2 with display := "block" } else e2
  if t = i then activate e3 else e3

/-- A page with three tab triggers (positions 0 to 2) and their three panels
(positions 3 to 5). -/
def tabsPage : World :=
  worldOf [{ blank "" with className := "tablinks" }, { blank "" with className := "tablinks" },
    { blank "" with className := "tablinks" },
    { blank "Image" with className := "tabcontent" },
    { blank "Audio" with className := "tabcontent" },
    { blank "Video" with className := "tabcontent" }]

/-- The same page, the markup marking the third trigger active with the class listed
first: `class="active tablinks"`. -/
def tabsPagePreselected : World :=
  worldOf [{ blank "" with className := "tablinks" }, { blank "" with className := "tablinks" },
    { blank "" with className := "active tablinks" },
    { blank "Image" with className := "tabcontent" },
    { blank "Audio" with className := "tabcontent" },
    { blank "Video" with className := "tabcontent" }]

/-! ## Theorems -/

/-! ### Effects of the library refresh -/

theorem update_log (w : World) (id : String) (f : Element → Element) :
    (w.update id f).log = w.log := rfl

theorem emit_log (w : World) (e : Effect) : (w.emit e).log = w.log ++ [e] := rfl

theorem emit_page (w : World) (e : Effect) : (w.emit e).page = w.page := rfl

theorem renderEntries_log (items : List JsVal) (w : World) :
    (UrlVariant.renderEntries items w).1.log = w.log := by
  induction items generalizing w with
  | nil => rfl
  | cons f rest ih =>
    unfold UrlVariant.renderEntries
    cases UrlVariant.renderEntry f with
    | error e => rfl
    | ok node => simp only []; rw [ih]; rfl

theorem updateLibraryTry_log (lib : FetchOutcome) (w : World) :
    (UrlVariant.updateLibraryTry lib w).1.log = w.log := by
  unfold UrlVariant.updateLibraryTry
  cases lib with
  | failed e => rfl
  | response res =>
    simp only []
    cases res.json with
    | error e => rfl
    | ok files =>
      cases files <;> simp only [] <;> first | rfl | (rw [renderEntries_log]; rfl)

theorem updateLibrary_log (lib : FetchOutcome) (w : World) :
    ∃ tail, (UrlVariant.updateLibrary lib w).1.log = w.log ++ tail ∧ RefreshOnly tail := by
  unfold UrlVariant.updateLibrary
  cases getElementById w.page "file-links" with
  | none => exact ⟨[], by simp, by intro e he; cases he⟩
  | some el =>
    simp only []
    have h := updateLibraryTry_log lib (w.emit (.fetch "/api/library" "GET" []))
    rcases hr : UrlVariant.updateLibraryTry lib (w.emit (.fetch "/api/library" "GET" []))
      with ⟨w1, r⟩
    rw [hr] at h
    simp only [emit_log] at h
    cases r with
    | ok u =>
      refine ⟨[.fetch "/api/library" "GET" []], h, ?_⟩
      intro e he
      simp at he
      exact Or.inl he
    | error err =>
      refine ⟨[.fetch "/api/library" "GET" [], .consoleError "Library update failed:" err], ?_, ?_⟩
      · simp [emit_log, h]
      · intro e he
        simp at he
        rcases he with he | he
        · exact Or.inl he
        · exact Or.inr ⟨_, _, he⟩

theorem refreshLibrary_log (lib : FetchOutcome) (w : World) :
    ∃ tail, (UrlVariant.refreshLibrary lib w).log = w.log ++ .call "updateLibrary" :: tail ∧
      RefreshOnly tail := by
  obtain ⟨tail, h, ht⟩ := updateLibrary_log lib (w.emit (.call "updateLibrary"))
  exact ⟨tail, by simp [UrlVariant.refreshLibrary, h, emit_log], ht⟩

theorem RefreshOnly.noSubmit {tail : List Effect} (h : RefreshOnly tail) : NoSubmit tail := by
  intro url method body hm
  rcases h _ hm with h1 | ⟨l, err, h1⟩
  · injection h1 with h1 h2 h3
    exact ⟨h1, h2, h3⟩
  · cases h1

theorem triggerDownload_log (a : Anchor) (w : World) :
    (triggerDownload a w).log = w.log ++ [.appendAnchor a, .clickAnchor a, .removeAnchor a] := by
  simp [triggerDownload, emit_log]

theorem encodeFileTry_log (mode : String) (enc lib : FetchOutcome) (w : World) :
    ∃ tail, (UrlVariant.encodeFileTry mode enc lib w).1.log = w.log ++ tail ∧ NoSubmit tail := by
  have hnil : NoSubmit [] := by intro _ _ _ h; cases h
  unfold UrlVariant.encodeFileTry
  split
  · exact ⟨[], by simp, hnil⟩
  · split
    · exact ⟨[], by simp, hnil⟩
    · split
      · exact ⟨[], by simp, hnil⟩
      · split
        · exact ⟨[], by simp, hnil⟩
        · rename_i text _
          refine ⟨[.alert ("Encode failed: " ++ text)], rfl, ?_⟩
          intro _ _ _ h
          simp at h
      · split
        · exact ⟨[], by simp, hnil⟩
        · split
          · split
            · exact ⟨[], by simp, hnil⟩
            · rename_i href _
              obtain ⟨tail, h, ht⟩ := refreshLibrary_log lib
                (triggerDownload ⟨href, "encoded_" ++ mode ++ "." ++ UrlVariant.encodeExtension mode⟩ w)
              refine ⟨_, by simp only [h, triggerDownload_log, List.append_assoc]; rfl, ?_⟩
              intro url method body hm
              simp at hm
              exact ht.noSubmit url method body hm
          · obtain ⟨tail, h, ht⟩ := refreshLibrary_log lib w
            refine ⟨_, h, ?_⟩
            intro url method body hm
            simp at hm
            exact ht.noSubmit url method body hm

theorem jsTrim_whitespace (value : String)
    (h : ∀ c ∈ value.data, isJsWhitespace c = true) : jsTrim value = "" := by
  have h1 : value.data.dropWhile isJsWhitespace = [] := List.dropWhile_eq_nil_iff.2 h
  simp [jsTrim, trimChars, h1]

/-! ### C1 -/

/-- C1. With the file input present and holding no file, `encodeFile` shows exactly the
validation notice and does nothing else (no request is issued, the page is untouched),
whatever the media kind and the message text: in the URL variant, and in the binary
variant (where the message field is read first and so has to exist). -/
theorem encodeFile_without_file (mode fileInputId msgInputId : String)
    (enc lib : FetchOutcome) (objectUrl : Blob → String) (w v : World)
    (fileInput fileInputB msgInputB : Element)
    (h1 : getElementById w.page fileInputId = some fileInput)
    (h2 : fileInput.files = some [])
    (h3 : getElementById v.page ("encode" ++ capitalize mode) = some fileInputB)
    (h4 : fileInputB.files = some [])
    (h5 : getElementById v.page ("secretMessage" ++ capitalize mode) = some msgInputB) :
    (UrlVariant.encodeFile mode fileInputId msgInputId enc lib w
        = (w.emit (.alert validationNotice), .done) ∧
      requests (newEffects w (UrlVariant.encodeFile mode fileInputId msgInputId enc lib w).1)
        = [] ∧
      alerts (newEffects w (UrlVariant.encodeFile mode fileInputId msgInputId enc lib w).1)
        = [validationNotice]) ∧
    (BinaryVariant.encodeFile mode enc objectUrl v
        = (v.emit (.alert validationNotice), .done) ∧
      requests (newEffects v (BinaryVariant.encodeFile mode enc objectUrl v).1) = [] ∧
      alerts (newEffects v (BinaryVariant.encodeFile mode enc objectUrl v).1)
        = [validationNotice]) := by
  have hA : UrlVariant.encodeFile mode fileInputId msgInputId enc lib w
      = (w.emit (.alert validationNotice), .done) := by
    simp [UrlVariant.encodeFile, h1, h2]
  have hB : BinaryVariant.encodeFile mode enc objectUrl v
      = (v.emit (.alert validationNotice), .done) := by
    simp [BinaryVariant.encodeFile, h3, h4, h5]
  rw [hA, hB]
  simp [newEffects, emit_log, requests, alerts]

/-- Witness of C1: the two empty image panels, with a message typed in. -/
theorem encodeFile_without_file_witness :
    (getElementById emptyUrlPanel.page "encodeImageFile"
        = some (fileInputWith "encodeImageFile" []) ∧
      getElementById emptyBinaryPanel.page ("encode" ++ capitalize "image")
        = some (fileInputWith "encodeImage" [])) ∧
    (UrlVariant.encodeFile "image" "encodeImageFile" "encodeImageMsg" networkDown networkDown
        emptyUrlPanel = (emptyUrlPanel.emit (.alert validationNotice), .done) ∧
      requests (newEffects emptyUrlPanel (UrlVariant.encodeFile "image" "encodeImageFile"
        "encodeImageMsg" networkDown networkDown emptyUrlPanel).1) = [] ∧
      alerts (newEffects emptyUrlPanel (UrlVariant.encodeFile "image" "encodeImageFile"
        "encodeImageMsg" networkDown networkDown emptyUrlPanel).1) = [validationNotice]) ∧
    (BinaryVariant.encodeFile "image" networkDown sampleObjectUrl emptyBinaryPanel
        = (emptyBinaryPanel.emit (.alert validationNotice), .done) ∧
      requests (newEffects emptyBinaryPanel
        (BinaryVariant.encodeFile "image" networkDown sampleObjectUrl emptyBinaryPanel).1) = [] ∧
      alerts (newEffects emptyBinaryPanel
        (BinaryVariant.encodeFile "image" networkDown sampleObjectUrl emptyBinaryPanel).1)
        = [validationNotice]) :=
  ⟨⟨by decide, by decide⟩,
    encodeFile_without_file "image" "encodeImageFile" "encodeImageMsg" networkDown networkDown
      sampleObjectUrl emptyUrlPanel emptyBinaryPanel (fileInputWith "encodeImageFile" [])
      (fileInputWith "encodeImage" []) (textFieldWith "secretMessageImage" "hello")
      (by decide) (by decide) (by decide) (by decide) (by decide)⟩

/-! ### C2 -/

/-- C2. Trim-then-check in the URL variant: with a file attached, a message made only
of whitespace (the empty message included) gets the validation notice and nothing else,
and every request `encodeFile` issues other than the library refresh is the encode POST
carrying the file and the trimmed message. -/
theorem encodeFile_trim_then_check (mode fileInputId msgInputId : String)
    (enc lib : FetchOutcome) (w : World) (fileInput msgInput : Element) (file : File)
    (others : List File) (value : String)
    (h1 : getElementById w.page fileInputId = some fileInput)
    (h2 : fileInput.files = some (file :: others))
    (h3 : getElementById w.page msgInputId = some msgInput)
    (h4 : msgInput.value = some value) :
    ((∀ c ∈ value.data, isJsWhitespace c = true) →
      UrlVariant.encodeFile mode fileInputId msgInputId enc lib w
        = (w.emit (.alert validationNotice), .done)) ∧
    (∀ url method body,
      Effect.fetch url method body ∈
        ((UrlVariant.encodeFile mode fileInputId msgInputId enc lib w).1.log.drop w.log.length) →
      (url = "/api/library" ∧ method = "GET" ∧ body = []) ∨
      (url = "/api/encode_" ++ mode ∧ method = "POST" ∧
        body = [("cover", .file file), ("message", .text (jsTrim value))])) := by
  refine ⟨?_, ?_⟩
  · intro hws
    simp [UrlVariant.encodeFile, h1, h2, h3, h4, jsTrim_whitespace value hws]
  · intro url method body hm
    by_cases ht : jsTrim value = ""
    · simp [UrlVariant.encodeFile, h1, h2, h3, h4, ht, emit_log] at hm
    · simp only [UrlVariant.encodeFile, h1, h2, h3, h4, ht, if_false] at hm
      obtain ⟨tail, hlog, hno⟩ := encodeFileTry_log mode enc lib
        (w.emit (.fetch ("/api/encode_" ++ mode) "POST"
          [("cover", .file file), ("message", .text (jsTrim value))]))
      rcases hr : UrlVariant.encodeFileTry mode enc lib
        (w.emit (.fetch ("/api/encode_" ++ mode) "POST"
          [("cover", .file file), ("message", .text (jsTrim value))])) with ⟨w1, r⟩
      rw [hr] at hm hlog
      simp only [emit_log] at hlog
      cases r with
      | ok u =>
        simp [hlog] at hm
        rcases hm with hm | hm
        · exact Or.inr hm
        · exact Or.inl (hno _ _ _ hm)
      | error e =>
        simp [hlog, emit_log] at hm
        rcases hm with hm | hm
        · exact Or.inr hm
        · exact Or.inl (hno _ _ _ hm)

/-- Witness of C2: a message of blanks and a tab is rejected; the message `" hi "` is
sent as `"hi"`. -/
theorem encodeFile_trim_then_check_witness :
    (getElementById (urlPanel " \t ").page "encodeImageFile"
        = some (fileInputWith "encodeImageFile" [cover]) ∧
      (fileInputWith "encodeImageFile" [cover]).files = some [cover] ∧
      getElementById (urlPanel " \t ").page "encodeImageMsg"
        = some (textFieldWith "encodeImageMsg" " \t ") ∧
      (textFieldWith "encodeImageMsg" " \t ").value = some " \t ") ∧
    UrlVariant.encodeFile "image" "encodeImageFile" "encodeImageMsg" networkDown networkDown
        (urlPanel " \t ") = ((urlPanel " \t ").emit (.alert validationNotice), .done) ∧
    (("/api/encode_image" = "/api/library" ∧ "POST" = "GET" ∧
        [("cover", FormValue.file cover), ("message", FormValue.text "hi")] = []) ∨
      ("/api/encode_image" = "/api/encode_" ++ "image" ∧ "POST" = "POST" ∧
        [("cover", FormValue.file cover), ("message", FormValue.text "hi")]
          = [("cover", .file cover), ("message", .text (jsTrim " hi "))])) :=
  ⟨⟨by decide, by decide, by decide, by decide⟩,
    (encodeFile_trim_then_check "image" "encodeImageFile" "encodeImageMsg" networkDown
      networkDown (urlPanel " \t ") (fileInputWith "encodeImageFile" [cover])
      (textFieldWith "encodeImageMsg" " \t ") cover [] " \t "
      (by decide) (by decide) (by decide) (by decide)).1 (by decide),
    (encodeFile_trim_then_check "image" "encodeImageFile" "encodeImageMsg" networkDown
      networkDown (urlPanel " hi ") (fileInputWith "encodeImageFile" [cover])
      (textFieldWith "encodeImageMsg" " hi ") cover [] " hi "
      (by decide) (by decide) (by decide) (by decide)).2 "/api/encode_image" "POST"
      [("cover", .file cover), ("message", .text "hi")] (by decide)⟩

/-! ### C3 -/

/-- C3. For the three media kinds, a successful encode response carrying an artifact
makes `encodeFile` trigger exactly one download: after the request, one anchor is
appended, clicked once and removed, named `encoded_image.png`, `encoded_audio.wav`,
`encoded_video.mp4` in the URL variant (which then only refreshes the library) and
`stego_image.png`, `stego_audio.wav`, `stego_video.avi` in the binary variant. -/
theorem encodeFile_single_download (mode fileInputId msgInputId : String) (lib : FetchOutcome)
    (objectUrl : Blob → String) (w v : World) (fileInput msgInput fileInputB msgInputB : Element)
    (file fileB : File) (others othersB : List File) (value valueB url : String)
    (response responseB : Response) (data error : JsVal) (blob : Blob)
    (hmode : mode = "image" ∨ mode = "audio" ∨ mode = "video")
    (h1 : getElementById w.page fileInputId = some fileInput)
    (h2 : fileInput.files = some (file :: others))
    (h3 : getElementById w.page msgInputId = some msgInput)
    (h4 : msgInput.value = some value)
    (h5 : jsTrim value ≠ "")
    (h6 : response.ok = true)
    (h7 : response.json = .ok data)
    (h8 : data.getProp "error" = .ok error)
    (h9 : error.truthy = false)
    (h10 : data.getProp "stego_file" = .ok (.str url))
    (h11 : url ≠ "")
    (b1 : getElementById v.page ("encode" ++ capitalize mode) = some fileInputB)
    (b2 : fileInputB.files = some (fileB :: othersB))
    (b3 : getElementById v.page ("secretMessage" ++ capitalize mode) = some msgInputB)
    (b4 : msgInputB.value = some valueB)
    (b5 : valueB ≠ "")
    (b6 : responseB.ok = true)
    (b7 : responseB.blob = .ok blob) :
    (∃ name tail,
      ((mode = "image" ∧ name = "encoded_image.png") ∨
        (mode = "audio" ∧ name = "encoded_audio.wav") ∨
        (mode = "video" ∧ name = "encoded_video.mp4")) ∧
      UrlVariant.encodeFile mode fileInputId msgInputId (.response response) lib w
        = (UrlVariant.refreshLibrary lib (triggerDownload ⟨url, name⟩
            (w.emit (.fetch ("/api/encode_" ++ mode) "POST"
              [("cover", .file file), ("message", .text (jsTrim value))]))), .done) ∧
      (UrlVariant.encodeFile mode fileInputId msgInputId (.response response) lib w).1.log
        = w.log ++ [.fetch ("/api/encode_" ++ mode) "POST"
              [("cover", .file file), ("message", .text (jsTrim value))],
            .appendAnchor ⟨url, name⟩, .clickAnchor ⟨url, name⟩, .removeAnchor ⟨url, name⟩,
            .call "updateLibrary"] ++ tail ∧
      RefreshOnly tail) ∧
    (∃ name,
      ((mode = "image" ∧ name = "stego_image.png") ∨
        (mode = "audio" ∧ name = "stego_audio.wav") ∨
        (mode = "video" ∧ name = "stego_video.avi")) ∧
      BinaryVariant.encodeFile mode (.response responseB) objectUrl v
        = ({ v with log := v.log ++ [.fetch ("/encode/" ++ mode) "POST"
              [("file", .file fileB), ("secret_message", .text valueB)],
            .appendAnchor ⟨objectUrl blob, name⟩, .clickAnchor ⟨objectUrl blob, name⟩,
            .removeAnchor ⟨objectUrl blob, name⟩] }, .done)) := by
  have hstr : (JsVal.str url).truthy = true := by simp [JsVal.truthy, h11]
  have hA : UrlVariant.encodeFile mode fileInputId msgInputId (.response response) lib w
      = (UrlVariant.refreshLibrary lib (triggerDownload
          ⟨url, "encoded_" ++ mode ++ "." ++ UrlVariant.encodeExtension mode⟩
            (w.emit (.fetch ("/api/encode_" ++ mode) "POST"
              [("cover", .file file), ("message", .text (jsTrim value))]))), .done) := by
    simp [UrlVariant.encodeFile, UrlVariant.encodeFileTry, UrlVariant.failed, h1, h2, h3, h4,
      h5, h6, h7, h8, h9, h10, hstr, JsVal.toStr, bind, Except.bind, pure, Except.pure]
  have hB : BinaryVariant.encodeFile mode (.response responseB) objectUrl v
      = ({ v with log := v.log ++ [.fetch ("/encode/" ++ mode) "POST"
              [("file", .file fileB), ("secret_message", .text valueB)],
            .appendAnchor ⟨objectUrl blob, "stego_" ++ mode ++ "." ++ BinaryVariant.encodeExtension mode⟩,
            .clickAnchor ⟨objectUrl blob, "stego_" ++ mode ++ "." ++ BinaryVariant.encodeExtension mode⟩,
            .removeAnchor ⟨objectUrl blob, "stego_" ++ mode ++ "." ++ BinaryVariant.encodeExtension mode⟩] },
          .done) := by
    simp [BinaryVariant.encodeFile, b1, b2, b3, b4, b5, b6, b7, triggerDownload, World.emit]
  refine ⟨⟨"encoded_" ++ mode ++ "." ++ UrlVariant.encodeExtension mode, ?_⟩,
    ⟨"stego_" ++ mode ++ "." ++ BinaryVariant.encodeExtension mode, ?_, hB⟩⟩
  · obtain ⟨tail, hlog, ht⟩ := refreshLibrary_log lib (triggerDownload
      ⟨url, "encoded_" ++ mode ++ "." ++ UrlVariant.encodeExtension mode⟩
        (w.emit (.fetch ("/api/encode_" ++ mode) "POST"
          [("cover", .file file), ("message", .text (jsTrim value))])))
    refine ⟨tail, ?_, hA, ?_, ht⟩
    · rcases hmode with h | h | h <;> subst h <;> decide
    · rw [hA]
      simp [hlog, triggerDownload_log, emit_log]
  · rcases hmode with h | h | h <;> subst h <;> decide

/-- Witness of C3: the image panels of both variants, message `"hello"`. -/
theorem encodeFile_single_download_witness :
    (jsTrim "hello" ≠ "" ∧ stegoReady.ok = true ∧
      (JsVal.obj [("stego_file", .str "/static/out/stego.png")]).getProp "stego_file"
        = .ok (.str "/static/out/stego.png")) ∧
    (∃ name tail,
      (("image" = "image" ∧ name = "encoded_image.png") ∨
        ("image" = "audio" ∧ name = "encoded_audio.wav") ∨
        ("image" = "video" ∧ name = "encoded_video.mp4")) ∧
      UrlVariant.encodeFile "image" "encodeImageFile" "encodeImageMsg" (.response stegoReady)
          networkDown (urlPanel "hello")
        = (UrlVariant.refreshLibrary networkDown (triggerDownload ⟨"/static/out/stego.png", name⟩
            ((urlPanel "hello").emit (.fetch ("/api/encode_" ++ "image") "POST"
              [("cover", .file cover), ("message", .text (jsTrim "hello"))]))), .done) ∧
      (UrlVariant.encodeFile "image" "encodeImageFile" "encodeImageMsg" (.response stegoReady)
          networkDown (urlPanel "hello")).1.log
        = (urlPanel "hello").log ++ [.fetch ("/api/encode_" ++ "image") "POST"
              [("cover", .file cover), ("message", .text (jsTrim "hello"))],
            .appendAnchor ⟨"/static/out/stego.png", name⟩,
            .clickAnchor ⟨"/static/out/stego.png", name⟩,
            .removeAnchor ⟨"/static/out/stego.png", name⟩,
            .call "updateLibrary"] ++ tail ∧
      RefreshOnly tail) ∧
    (∃ name,
      (("image" = "image" ∧ name = "stego_image.png") ∨
        ("image" = "audio" ∧ name = "stego_audio.wav") ∨
        ("image" = "video" ∧ name = "stego_video.avi")) ∧
      BinaryVariant.encodeFile "image" (.response (blobResponse true "OK" stegoBlob))
          sampleObjectUrl (binaryPanel "hello")
        = ({ binaryPanel "hello" with log := (binaryPanel "hello").log ++
            [.fetch ("/encode/" ++ "image") "POST"
              [("file", .file cover), ("secret_message", .text "hello")],
            .appendAnchor ⟨sampleObjectUrl stegoBlob, name⟩,
            .clickAnchor ⟨sampleObjectUrl stegoBlob, name⟩,
            .removeAnchor ⟨sampleObjectUrl stegoBlob, name⟩] }, .done)) :=
  ⟨⟨by decide, rfl, rfl⟩,
    encodeFile_single_download "image" "encodeImageFile" "encodeImageMsg" networkDown
      sampleObjectUrl (urlPanel "hello") (binaryPanel "hello")
      (fileInputWith "encodeImageFile" [cover]) (textFieldWith "encodeImageMsg" "hello")
      (fileInputWith "encodeImage" [cover]) (textFieldWith "secretMessageImage" "hello")
      cover cover [] [] "hello" "hello" "/static/out/stego.png" stegoReady
      (blobResponse true "OK" stegoBlob) (.obj [("stego_file", .str "/static/out/stego.png")])
      .undefined stegoBlob (Or.inl rfl) (by decide) (by decide) (by decide) (by decide)
      (by decide) rfl rfl rfl rfl rfl (by decide) (by decide) (by decide) (by decide)
      (by decide) (by decide) rfl rfl⟩

/-! ### C4 -/

/-- C4, as stated, fails on three responses. A 200 response whose body carries the error
field `""` is treated as a success: no notice, one download, and the library refresh is
invoked. A 500 response whose body is not JSON gets the notice of the `catch` branch,
built from the parse error and not from the status text. A 400 response whose error field
is an object with its own `toString` key gets the notice of the `catch` branch too, built
from the conversion error. -/
theorem encodeFile_error_field_counterexample :
    (lookupLast "error"
        [("error", JsVal.str ""), ("stego_file", JsVal.str "/static/out/stego.png")]
      = some (.str "") ∧
      alerts (newEffects (urlPanel "hello")
        (UrlVariant.encodeFile "image" "encodeImageFile" "encodeImageMsg"
          (.response emptyErrorField) networkDown (urlPanel "hello")).1) = [] ∧
      downloads (newEffects (urlPanel "hello")
        (UrlVariant.encodeFile "image" "encodeImageFile" "encodeImageMsg"
          (.response emptyErrorField) networkDown (urlPanel "hello")).1)
        = [⟨"/static/out/stego.png", "encoded_image.png"⟩] ∧
      calls (newEffects (urlPanel "hello")
        (UrlVariant.encodeFile "image" "encodeImageFile" "encodeImageMsg"
          (.response emptyErrorField) networkDown (urlPanel "hello")).1) = ["updateLibrary"]) ∧
    (htmlErrorPage.ok = false ∧
      alerts (newEffects (urlPanel "hello")
        (UrlVariant.encodeFile "image" "encodeImageFile" "encodeImageMsg"
          (.response htmlErrorPage) networkDown (urlPanel "hello")).1)
        = ["Encode error: Unexpected token '<'"]) ∧
    (unprintableError.ok = false ∧
      alerts (newEffects (urlPanel "hello")
        (UrlVariant.encodeFile "image" "encodeImageFile" "encodeImageMsg"
          (.response unprintableError) networkDown (urlPanel "hello")).1)
        = ["Encode error: Cannot convert object to primitive value"]) :=
  ⟨⟨rfl, by decide, by decide, by decide⟩, ⟨by decide, by decide⟩, by decide, by decide⟩

/-- C4, amended. When the body parses as JSON other than `null`, its `error` field, if
truthy, converts to a text, and the response has a non-success status or a truthy `error`
field (for a text: a non-empty one), `encodeFile` adds to the request exactly one notice,
`"Encode failed: "` followed by the text of the error field when the field is truthy and
by the status text otherwise, and stops: no anchor, no download, no call of
`updateLibrary`. -/
theorem encodeFile_failure_notice (mode fileInputId msgInputId : String) (lib : FetchOutcome)
    (w : World) (fileInput msgInput : Element) (file : File) (others : List File)
    (value errorText : String) (response : Response) (data error : JsVal)
    (h1 : getElementById w.page fileInputId = some fileInput)
    (h2 : fileInput.files = some (file :: others))
    (h3 : getElementById w.page msgInputId = some msgInput)
    (h4 : msgInput.value = some value)
    (h5 : jsTrim value ≠ "")
    (h6 : response.json = .ok data)
    (h7 : data.getProp "error" = .ok error)
    (h8 : error.truthy = true → error.toStr = .ok errorText)
    (h9 : response.ok = false ∨ error.truthy = true) :
    UrlVariant.encodeFile mode fileInputId msgInputId (.response response) lib w
        = ({ w with log := w.log ++
          [.fetch ("/api/encode_" ++ mode) "POST"
              [("cover", .file file), ("message", .text (jsTrim value))],
            .alert ("Encode failed: " ++
              (if error.truthy = true then errorText else response.statusText))] }, .done) ∧
    alerts (newEffects w
      (UrlVariant.encodeFile mode fileInputId msgInputId (.response response) lib w).1)
      = ["Encode failed: " ++
          (if error.truthy = true then errorText else response.statusText)] ∧
    downloads (newEffects w
      (UrlVariant.encodeFile mode fileInputId msgInputId (.response response) lib w).1) = [] ∧
    calls (newEffects w
      (UrlVariant.encodeFile mode fileInputId msgInputId (.response response) lib w).1) = [] := by
  have hfailed : UrlVariant.failed data response = .ok true := by
    rcases h9 with h | h
    · simp [UrlVariant.failed, h, pure, Except.pure]
    · cases hok : response.ok <;>
        simp [UrlVariant.failed, h, h7, hok, pure, Except.pure, bind, Except.bind]
  have htext : UrlVariant.failureText data response
      = .ok (if error.truthy = true then errorText else response.statusText) := by
    cases ht : error.truthy
    · simp [UrlVariant.failureText, h7, ht, pure, Except.pure, bind, Except.bind]
    · simp [UrlVariant.failureText, h7, h8 ht, ht, bind, Except.bind]
  have hrun : UrlVariant.encodeFile mode fileInputId msgInputId (.response response) lib w
      = ({ w with log := w.log ++
          [.fetch ("/api/encode_" ++ mode) "POST"
              [("cover", .file file), ("message", .text (jsTrim value))],
            .alert ("Encode failed: " ++
              (if error.truthy = true then errorText else response.statusText))] }, .done) := by
    simp [UrlVariant.encodeFile, UrlVariant.encodeFileTry, h1, h2, h3, h4, h5, h6, hfailed,
      htext, World.emit]
  rw [hrun]
  refine ⟨rfl, ?_, ?_, ?_⟩ <;> simp [newEffects, alerts, downloads, calls]

/-- Witness of C4, amended: a 400 response naming the error. -/
theorem encodeFile_failure_notice_witness :
    (jsTrim "hello" ≠ "" ∧ (messageTooLong.ok = false ∨
        (JsVal.str "Message too long").truthy = true)) ∧
    UrlVariant.encodeFile "image" "encodeImageFile" "encodeImageMsg" (.response messageTooLong)
        networkDown (urlPanel "hello")
      = ({ urlPanel "hello" with log := (urlPanel "hello").log ++
          [.fetch ("/api/encode_" ++ "image") "POST"
              [("cover", .file cover), ("message", .text (jsTrim "hello"))],
            .alert ("Encode failed: " ++
              (if (JsVal.str "Message too long").truthy = true then "Message too long"
                else messageTooLong.statusText))] }, .done) ∧
    alerts (newEffects (urlPanel "hello")
      (UrlVariant.encodeFile "image" "encodeImageFile" "encodeImageMsg"
        (.response messageTooLong) networkDown (urlPanel "hello")).1)
      = ["Encode failed: " ++
          (if (JsVal.str "Message too long").truthy = true then "Message too long"
            else messageTooLong.statusText)] ∧
    downloads (newEffects (urlPanel "hello")
      (UrlVariant.encodeFile "image" "encodeImageFile" "encodeImageMsg"
        (.response messageTooLong) networkDown (urlPanel "hello")).1) = [] ∧
    calls (newEffects (urlPanel "hello")
      (UrlVariant.encodeFile "image" "encodeImageFile" "encodeImageMsg"
        (.response messageTooLong) networkDown (urlPanel "hello")).1) = [] :=
  ⟨⟨by decide, Or.inl rfl⟩,
    encodeFile_failure_notice "image" "encodeImageFile" "encodeImageMsg" networkDown
      (urlPanel "hello") (fileInputWith "encodeImageFile" [cover])
      (textFieldWith "encodeImageMsg" "hello") cover [] "hello" "Message too long"
      messageTooLong (.obj [("error", .str "Message too long")]) (.str "Message too long")
      (by decide) (by decide) (by decide) (by decide) (by decide) rfl rfl (fun _ => rfl)
      (Or.inl rfl)⟩

/-! ### Lookups after an update -/

theorem find_modifyFirst_same (page : List Element) (target : String) (f : Element → Element)
    (hf : ∀ e, (f e).id = e.id) :
    (modifyFirst (fun e => e.id == target) f page).find? (fun e => e.id == target)
      = (page.find? (fun e => e.id == target)).map f := by
  induction page with
  | nil => rfl
  | cons e rest ih =>
    by_cases ht : e.id = target
    · have h2 : (f e).id = target := by rw [hf]; exact ht
      simp [modifyFirst, ht, h2]
    · simp [modifyFirst, ht, ih]

theorem find_modifyFirst_other (page : List Element) (id target : String)
    (f : Element → Element) (hf : ∀ e, (f e).id = e.id) (hne : id ≠ target) :
    (modifyFirst (fun e => e.id == target) f page).find? (fun e => e.id == id)
      = page.find? (fun e => e.id == id) := by
  induction page with
  | nil => rfl
  | cons e rest ih =>
    cases ht : (e.id == target)
    · cases hi : (e.id == id)
      · simp only [modifyFirst, ht, List.find?_cons, hi, ih, Bool.false_eq_true, if_false]
      · simp only [modifyFirst, ht, List.find?_cons, hi, Bool.false_eq_true, if_false]
    · have h3 : (e.id == id) = false := by
        rw [beq_eq_false_iff_ne]
        intro h
        exact hne (h.symm.trans (beq_iff_eq.1 ht))
      have h2 : ((f e).id == id) = false := by rw [hf]; exact h3
      simp only [modifyFirst, ht, List.find?_cons, h2, h3, if_true]

theorem getElementById_update_same (w : World) (target : String) (f : Element → Element)
    (hf : ∀ e, (f e).id = e.id) :
    getElementById (w.update target f).page target = (getElementById w.page target).map f := by
  unfold getElementById World.update
  by_cases h : target = ""
  · simp [h]
  · simp only [h, if_false]
    exact find_modifyFirst_same w.page target f hf

theorem getElementById_update_other (w : World) (id target : String) (f : Element → Element)
    (hf : ∀ e, (f e).id = e.id) (hne : id ≠ target) :
    getElementById (w.update target f).page id = getElementById w.page id := by
  unfold getElementById World.update
  by_cases h : id = ""
  · simp [h]
  · simp only [h, if_false]
    exact find_modifyFirst_other w.page id target f hf hne

theorem sameValues_update (w : World) (target : String) (f : Element → Element)
    (hf : ∀ e, (f e).id = e.id) (hv : ∀ e, (f e).value = e.value) :
    SameValues w.page (w.update target f).page := by
  intro id
  by_cases h : id = target
  · subst h
    rw [getElementById_update_same w id f hf]
    cases getElementById w.page id with
    | none => rfl
    | some e => simp [hv]
  · rw [getElementById_update_other w id target f hf h]

theorem SameValues.trans {p q r : List Element} (h1 : SameValues p q) (h2 : SameValues q r) :
    SameValues p r := fun id => (h2 id).trans (h1 id)

theorem renderEntries_values (items : List JsVal) (w : World) :
    SameValues w.page (UrlVariant.renderEntries items w).1.page := by
  induction items generalizing w with
  | nil => intro id; rfl
  | cons f rest ih =>
    unfold UrlVariant.renderEntries
    cases UrlVariant.renderEntry f with
    | error e => intro id; rfl
    | ok node =>
      exact (sameValues_update w "file-links"
        (fun el => { el with content := el.content ++ [node] })
        (fun _ => rfl) (fun _ => rfl)).trans (ih _)

theorem updateLibraryTry_values (lib : FetchOutcome) (w : World) :
    SameValues w.page (UrlVariant.updateLibraryTry lib w).1.page := by
  have hclear := sameValues_update w "file-links"
    (fun el => { el with content := [.html UrlVariant.libraryHeading] })
    (fun _ => rfl) (fun _ => rfl)
  unfold UrlVariant.updateLibraryTry
  cases lib with
  | failed e => intro id; rfl
  | response res =>
    simp only []
    cases res.json with
    | error e => intro id; rfl
    | ok files =>
      cases files <;> simp only [] <;> first | exact hclear | exact hclear.trans (renderEntries_values _ _)

theorem updateLibrary_values (lib : FetchOutcome) (w : World) :
    SameValues w.page (UrlVariant.updateLibrary lib w).1.page := by
  unfold UrlVariant.updateLibrary
  cases getElementById w.page "file-links" with
  | none => intro id; rfl
  | some el =>
    simp only []
    have h := updateLibraryTry_values lib (w.emit (.fetch "/api/library" "GET" []))
    rcases hr : UrlVariant.updateLibraryTry lib (w.emit (.fetch "/api/library" "GET" []))
      with ⟨w1, r⟩
    rw [hr] at h
    cases r <;> exact h

theorem refreshLibrary_values (lib : FetchOutcome) (w : World) :
    SameValues w.page (UrlVariant.refreshLibrary lib w).page :=
  updateLibrary_values lib (w.emit (.call "updateLibrary"))

theorem RefreshOnly.alerts {tail : List Effect} (h : RefreshOnly tail) : alerts tail = [] := by
  unfold StegoClient.alerts
  rw [List.filterMap_eq_nil_iff]
  intro e he
  rcases h e he with h1 | ⟨l, err, h1⟩ <;> subst h1 <;> rfl

/-! ### C5 and C6 -/

/-- The successful path of `decodeFile`: the request, then at most one download, then
the step `next` taken on the message. -/
theorem decodeFile_success (mode outputId : String) (now : Nat) (lib : FetchOutcome)
    (w : World) (file : File) (response : Response) (data error artifact message : JsVal)
    (h4 : response.ok = true)
    (h5 : response.json = .ok data)
    (h6 : data.getProp "error" = .ok error)
    (h7 : error.truthy = false)
    (h8 : data.getProp "decoded_file" = .ok artifact)
    (h9 : artifact = .undefined ∨ ∃ u, artifact = .str u)
    (h10 : data.getProp "data" = .ok message) :
    ∃ w1 : World, ∃ extra : List Effect, w1.page = w.page ∧
      w1.log = w.log ++ .fetch ("/api/decode_" ++ mode) "POST" [("stego", .file file)] :: extra ∧
      alerts extra = [] ∧
      UrlVariant.decodeFileTry mode outputId (getElementById w.page outputId) now
          (.response response) lib
          (w.emit (.fetch ("/api/decode_" ++ mode) "POST" [("stego", .file file)]))
        = (match getElementById w.page outputId with
          | some _ =>
            match (if message.truthy then message.toStr else .ok "") with
            | .error e => (w1, .error e)
            | .ok text =>
              (UrlVariant.refreshLibrary lib
                (w1.update outputId (fun el => { el with value := some text })), .ok ())
          | none =>
            if message.truthy then
              match message.toStr with
              | .error e => (w1, .error e)
              | .ok text =>
                (UrlVariant.refreshLibrary lib (w1.emit (.alert ("Decoded message: " ++ text))),
                  .ok ())
            else (UrlVariant.refreshLibrary lib w1, .ok ())) := by
  have hfailed : UrlVariant.failed data response = .ok false := by
    simp [UrlVariant.failed, h4, h6, h7, pure, Except.pure, bind, Except.bind]
  rcases h9 with h9 | ⟨u, h9⟩
  · subst h9
    refine ⟨w.emit (.fetch ("/api/decode_" ++ mode) "POST" [("stego", .file file)]), [], rfl,
      rfl, rfl, ?_⟩
    simp [UrlVariant.decodeFileTry, UrlVariant.decodeSuccess, h5, hfailed, h8, h10,
      JsVal.truthy]
  · subst h9
    by_cases hu : u = ""
    · subst hu
      refine ⟨w.emit (.fetch ("/api/decode_" ++ mode) "POST" [("stego", .file file)]), [], rfl,
        rfl, rfl, ?_⟩
      simp [UrlVariant.decodeFileTry, UrlVariant.decodeSuccess, h5, hfailed, h8, h10,
        JsVal.truthy]
    · refine ⟨triggerDownload ⟨u, "decoded_" ++ mode ++ "_" ++ toString now ++ ".txt"⟩
          (w.emit (.fetch ("/api/decode_" ++ mode) "POST" [("stego", .file file)])),
        [.appendAnchor ⟨u, "decoded_" ++ mode ++ "_" ++ toString now ++ ".txt"⟩,
          .clickAnchor ⟨u, "decoded_" ++ mode ++ "_" ++ toString now ++ ".txt"⟩,
          .removeAnchor ⟨u, "decoded_" ++ mode ++ "_" ++ toString now ++ ".txt"⟩], rfl,
        ?_, rfl, ?_⟩
      · simp [triggerDownload_log, emit_log]
      · simp [UrlVariant.decodeFileTry, UrlVariant.decodeSuccess, h5, hfailed, h8, h10,
          JsVal.truthy, hu, JsVal.toStr, Except.map]

theorem alerts_append (xs ys : List Effect) : alerts (xs ++ ys) = alerts xs ++ alerts ys := by
  simp [alerts, List.filterMap_append]

theorem alerts_cons (e : Effect) (xs : List Effect) :
    alerts (e :: xs) = (match e with | .alert m => [m] | _ => []) ++ alerts xs := by
  cases e <;> simp [alerts, List.filterMap_cons]

/-- C5. In the URL variant, after a successful decode response (success status, body
without a truthy error, artifact reference absent or a URL, recovered message a text),
when the output field exists `decodeFile` ends with the recovered message as the value
of that field, the empty message included, and shows no notice. -/
theorem decodeFile_writes_output (mode fileInputId outputId : String) (now : Nat)
    (lib : FetchOutcome) (w : World) (fileInput output : Element) (file : File)
    (others : List File) (response : Response) (data error artifact : JsVal) (message : String)
    (h1 : getElementById w.page fileInputId = some fileInput)
    (h2 : fileInput.files = some (file :: others))
    (h3 : getElementById w.page outputId = some output)
    (h4 : response.ok = true)
    (h5 : response.json = .ok data)
    (h6 : data.getProp "error" = .ok error)
    (h7 : error.truthy = false)
    (h8 : data.getProp "decoded_file" = .ok artifact)
    (h9 : artifact = .undefined ∨ ∃ u, artifact = .str u)
    (h10 : data.getProp "data" = .ok (.str message)) :
    (UrlVariant.decodeFile mode fileInputId outputId now (.response response) lib w).2 = .done ∧
    alerts (newEffects w
      (UrlVariant.decodeFile mode fileInputId outputId now (.response response) lib w).1) = [] ∧
    (getElementById
      (UrlVariant.decodeFile mode fileInputId outputId now (.response response) lib w).1.page
      outputId).map (fun e => e.value) = some (some message) := by
  obtain ⟨w1, extra, hp, hl, ha, htry⟩ := decodeFile_success mode outputId now lib w file
    response data error artifact (.str message) h4 h5 h6 h7 h8 h9 h10
  have htext : (if (JsVal.str message).truthy = true then (JsVal.str message).toStr
      else Except.ok "") = .ok message := by
    by_cases hm : message = "" <;> simp [JsVal.truthy, JsVal.toStr, hm]
  have hrun : UrlVariant.decodeFile mode fileInputId outputId now (.response response) lib w
      = (UrlVariant.refreshLibrary lib
          (w1.update outputId (fun el => { el with value := some message })), .done) := by
    rw [h3] at htry
    simp only [htext] at htry
    simp only [UrlVariant.decodeFile, h1, h2, h3, htry]
  obtain ⟨tail, hlog, ht⟩ := refreshLibrary_log lib
    (w1.update outputId (fun el => { el with value := some message }))
  have hval := refreshLibrary_values lib
    (w1.update outputId (fun el => { el with value := some message })) outputId
  rw [hrun]
  refine ⟨rfl, ?_, ?_⟩
  · simp [newEffects, hlog, update_log, hl, alerts_append, alerts_cons, ha, ht.alerts]
  · rw [hval, getElementById_update_same w1 outputId
      (fun el => { el with value := some message }) (fun _ => rfl), hp, h3]
    rfl

/-- Witness of C5: the empty recovered message overwrites the old value of the field. -/
theorem decodeFile_writes_output_witness :
    (getElementById decodePanel.page "decodeImageOutput"
        = some (textFieldWith "decodeImageOutput" "old") ∧ (decoded "").ok = true) ∧
    (UrlVariant.decodeFile "image" "decodeImageFile" "decodeImageOutput" 1700000000000
        (.response (decoded "")) networkDown decodePanel).2 = .done ∧
    alerts (newEffects decodePanel
      (UrlVariant.decodeFile "image" "decodeImageFile" "decodeImageOutput" 1700000000000
        (.response (decoded "")) networkDown decodePanel).1) = [] ∧
    (getElementById
      (UrlVariant.decodeFile "image" "decodeImageFile" "decodeImageOutput" 1700000000000
        (.response (decoded "")) networkDown decodePanel).1.page
      "decodeImageOutput").map (fun e => e.value) = some (some "") :=
  ⟨⟨by decide, rfl⟩,
    decodeFile_writes_output "image" "decodeImageFile" "decodeImageOutput" 1700000000000
      networkDown decodePanel (fileInputWith "decodeImageFile" [⟨"stego.png"⟩])
      (textFieldWith "decodeImageOutput" "old") ⟨"stego.png"⟩ [] (decoded "")
      (.obj [("data", .str "")]) .undefined .undefined ""
      (by decide) (by decide) (by decide) rfl rfl rfl rfl rfl (Or.inl rfl) rfl⟩

/-- C6, as stated, fails for the empty message: on a page without the output field, a
successful response recovering `""` shows no notice at all. -/
theorem decodeFile_empty_message_counterexample :
    getElementById decodePanelBare.page "decodeImageOutput" = none ∧
    (UrlVariant.decodeFile "image" "decodeImageFile" "decodeImageOutput" 1700000000000
        (.response (decoded "")) networkDown decodePanelBare).2 = .done ∧
    alerts (newEffects decodePanelBare
      (UrlVariant.decodeFile "image" "decodeImageFile" "decodeImageOutput" 1700000000000
        (.response (decoded "")) networkDown decodePanelBare).1) = [] :=
  ⟨by decide, by decide, by decide⟩

/-- C6, amended. In the URL variant, after a successful decode response (as in C5), when
no output field exists `decodeFile` returns having shown exactly one notice,
`"Decoded message: "` followed by the recovered message, when that message is not empty,
and no notice when it is empty. -/
theorem decodeFile_alerts_message (mode fileInputId outputId : String) (now : Nat)
    (lib : FetchOutcome) (w : World) (fileInput : Element) (file : File)
    (others : List File) (response : Response) (data error artifact : JsVal) (message : String)
    (h1 : getElementById w.page fileInputId = some fileInput)
    (h2 : fileInput.files = some (file :: others))
    (h3 : getElementById w.page outputId = none)
    (h4 : response.ok = true)
    (h5 : response.json = .ok data)
    (h6 : data.getProp "error" = .ok error)
    (h7 : error.truthy = false)
    (h8 : data.getProp "decoded_file" = .ok artifact)
    (h9 : artifact = .undefined ∨ ∃ u, artifact = .str u)
    (h10 : data.getProp "data" = .ok (.str message)) :
    (UrlVariant.decodeFile mode fileInputId outputId now (.response response) lib w).2 = .done ∧
    alerts (newEffects w
      (UrlVariant.decodeFile mode fileInputId outputId now (.response response) lib w).1)
      = (if message = "" then [] else ["Decoded message: " ++ message]) := by
  obtain ⟨w1, extra, hp, hl, ha, htry⟩ := decodeFile_success mode outputId now lib w file
    response data error artifact (.str message) h4 h5 h6 h7 h8 h9 h10
  rw [h3] at htry
  by_cases h11 : message = ""
  · have hrun : UrlVariant.decodeFile mode fileInputId outputId now (.response response) lib w
        = (UrlVariant.refreshLibrary lib w1, .done) := by
      simp only [JsVal.truthy, h11, bne_self_eq_false, Bool.false_eq_true, if_false] at htry
      simp only [UrlVariant.decodeFile, h1, h2, h3, htry]
    obtain ⟨tail, hlog, ht⟩ := refreshLibrary_log lib w1
    rw [hrun]
    refine ⟨rfl, ?_⟩
    simp [newEffects, hlog, hl, alerts_append, alerts_cons, ha, ht.alerts, h11]
  · have hrun : UrlVariant.decodeFile mode fileInputId outputId now (.response response) lib w
        = (UrlVariant.refreshLibrary lib (w1.emit (.alert ("Decoded message: " ++ message))),
            .done) := by
      simp only [JsVal.truthy, JsVal.toStr, bne_iff_ne, ne_eq, h11, not_false_eq_true, if_true]
        at htry
      simp only [UrlVariant.decodeFile, h1, h2, h3, htry]
    obtain ⟨tail, hlog, ht⟩ := refreshLibrary_log lib
      (w1.emit (.alert ("Decoded message: " ++ message)))
    rw [hrun]
    refine ⟨rfl, ?_⟩
    simp [newEffects, hlog, emit_log, hl, alerts_append, alerts_cons, ha, ht.alerts, h11]

/-- Witness of C6, amended: the message `"meet at noon"` on the page without the field. -/
theorem decodeFile_alerts_message_witness :
    (getElementById decodePanelBare.page "decodeImageOutput" = none ∧
      (decoded "meet at noon").ok = true) ∧
    (UrlVariant.decodeFile "image" "decodeImageFile" "decodeImageOutput" 1700000000000
        (.response (decoded "meet at noon")) networkDown decodePanelBare).2 = .done ∧
    alerts (newEffects decodePanelBare
      (UrlVariant.decodeFile "image" "decodeImageFile" "decodeImageOutput" 1700000000000
        (.response (decoded "meet at noon")) networkDown decodePanelBare).1)
      = (if "meet at noon" = "" then [] else ["Decoded message: " ++ "meet at noon"]) :=
  ⟨⟨by decide, rfl⟩,
    decodeFile_alerts_message "image" "decodeImageFile" "decodeImageOutput" 1700000000000
      networkDown decodePanelBare (fileInputWith "decodeImageFile" [⟨"stego.png"⟩])
      ⟨"stego.png"⟩ [] (decoded "meet at noon") (.obj [("data", .str "meet at noon")])
      .undefined .undefined "meet at noon"
      (by decide) (by decide) (by decide) rfl rfl rfl rfl rfl (Or.inl rfl) rfl⟩

/-! ### C7 -/

/-- C7, as stated, fails when the body is valid JSON that is not a sequence of
entries: the surface is reset to the heading before `files.forEach` throws, so a library
showing three entries is left showing none. -/
theorem updateLibrary_not_a_sequence_counterexample :
    (renderedLibrary threeEntryLibrary).map List.length = some 4 ∧
    renderedLibrary
        (UrlVariant.updateLibrary (.response libraryUnavailable) threeEntryLibrary).1
      = some [.html UrlVariant.libraryHeading] ∧
    (UrlVariant.updateLibrary (.response libraryUnavailable) threeEntryLibrary).2 = .done :=
  ⟨by decide, by decide, by decide⟩

/-- C7, amended. When the fetch fails or the response body is not valid JSON,
`updateLibrary` leaves the whole page, the rendered library included, exactly as it was;
and whatever the request settles to, `updateLibrary` returns without raising. -/
theorem updateLibrary_failure_keeps_library (lib : FetchOutcome) (w : World)
    (h : (∃ e, lib = .failed e) ∨ (∃ res e, lib = .response res ∧ res.json = .error e)) :
    (UrlVariant.updateLibrary lib w).1.page = w.page ∧
    renderedLibrary (UrlVariant.updateLibrary lib w).1 = renderedLibrary w ∧
    ∀ (settled : FetchOutcome) (v : World), (UrlVariant.updateLibrary settled v).2 = .done := by
  have hpage : (UrlVariant.updateLibrary lib w).1.page = w.page := by
    unfold UrlVariant.updateLibrary
    cases getElementById w.page "file-links" with
    | none => rfl
    | some el =>
      rcases h with ⟨e, h⟩ | ⟨res, e, h, hj⟩
      · subst h
        rfl
      · subst h
        simp [UrlVariant.updateLibraryTry, hj, World.emit]
  refine ⟨hpage, by simp [renderedLibrary, hpage], ?_⟩
  intro settled v
  unfold UrlVariant.updateLibrary
  cases getElementById v.page "file-links" with
  | none => rfl
  | some el =>
    simp only []
    rcases UrlVariant.updateLibraryTry settled (v.emit (.fetch "/api/library" "GET" []))
      with ⟨w1, r⟩
    cases r <;> rfl

/-- Witness of C7, amended: the network is down while three entries are shown. -/
theorem updateLibrary_failure_keeps_library_witness :
    ((∃ e, networkDown = .failed e) ∨
      (∃ res e, networkDown = .response res ∧ res.json = .error e)) ∧
    (UrlVariant.updateLibrary networkDown threeEntryLibrary).1.page = threeEntryLibrary.page ∧
    renderedLibrary (UrlVariant.updateLibrary networkDown threeEntryLibrary).1
      = renderedLibrary threeEntryLibrary ∧
    ∀ (settled : FetchOutcome) (v : World), (UrlVariant.updateLibrary settled v).2 = .done :=
  ⟨Or.inl ⟨_, rfl⟩,
    updateLibrary_failure_keeps_library networkDown threeEntryLibrary (Or.inl ⟨_, rfl⟩)⟩

/-! ### C8 -/

theorem getElementById_update (w : World) (id target : String) (f : Element → Element)
    (hf : ∀ e, (f e).id = e.id) :
    getElementById (w.update target f).page id
      = (getElementById w.page id).map (fun e => if id = target then f e else e) := by
  by_cases h : id = target
  · subst h
    simp [getElementById_update_same w id f hf]
  · simp [getElementById_update_other w id target f hf h, h]

theorem handleFileSelect_first (fileInputId previewId type : String) (w : World)
    (el : Element) (f : File) (fs : List File)
    (h1 : getElementById w.page fileInputId = some el) (h2 : el.files = some (f :: fs)) :
    handleFileSelect fileInputId previewId type w
      = (w.emit (.readAsDataURL f previewId type), .done) := by
  simp [handleFileSelect, h1, h2]

theorem handleFileSelect_after_attach (fileInputId previewId type : String) (w : World)
    (f : File) (fs : List File) (h : (getElementById w.page fileInputId).isSome = true) :
    handleFileSelect fileInputId previewId type
        (w.update fileInputId (fun el => { el with files := some (f :: fs) }))
      = ((w.update fileInputId (fun el => { el with files := some (f :: fs) })).emit
          (.readAsDataURL f previewId type), .done) := by
  obtain ⟨el, hel⟩ := Option.isSome_iff_exists.1 h
  refine handleFileSelect_first fileInputId previewId type _
    { el with files := some (f :: fs) } f fs ?_ rfl
  rw [getElementById_update_same w fileInputId
    (fun el => { el with files := some (f :: fs) }) (fun _ => rfl), hel]
  rfl

theorem attachedFiles_after_attach (fileInputId : String) (w : World) (files : List File)
    (e : Effect) (h : (getElementById w.page fileInputId).isSome = true) :
    attachedFiles ((w.update fileInputId (fun el => { el with files := some files })).emit e)
      fileInputId = some files := by
  obtain ⟨el, hel⟩ := Option.isSome_iff_exists.1 h
  unfold attachedFiles
  rw [emit_page, getElementById_update_same w fileInputId
    (fun el => { el with files := some files }) (fun _ => rfl), hel]
  rfl

theorem classListRemove_id (token : String) (e : Element) : (classListRemove token e).id = e.id :=
  rfl

theorem runListeners_skip (target : String) (evt : DomEvent) (ls rest : List Listener)
    (w : World) (h : ∀ l ∈ ls, l.target ≠ target) :
    runListeners target evt (ls ++ rest) w = runListeners target evt rest w := by
  induction ls with
  | nil => rfl
  | cons l ls ih =>
    have hl : (l.target == target) = false := by
      rw [beq_eq_false_iff_ne]
      exact h l (List.mem_cons_self _ _)
    simp only [List.cons_append, runListeners, hl, Bool.false_and, Bool.false_eq_true, if_false]
    exact ih (fun x hx => h x (List.mem_cons_of_mem _ hx))

theorem runListeners_none (target : String) (evt : DomEvent) (ls : List Listener)
    (w : World) (h : ∀ l ∈ ls, l.target ≠ target) : runListeners target evt ls w = w := by
  have := runListeners_skip target evt ls [] w h
  rw [List.append_nil] at this
  exact this

/-- C8, as stated, fails: after two files are dropped on a bound zone, both are
attached to the file input (in both variants), not only the first; and a zone that
`setupFileUpload` has bound twice starts two preview renders for one drop. -/
theorem drop_two_files_counterexample :
    (attachedFiles (dispatch "imgEncodeUpload" dropTwo
        (UrlVariant.setupFileUpload "imgEncodeUpload" "encodeImageFile" "imgEncodePreview"
          "image" uploadSlot)) "encodeImageFile"
      = some [firstDropped, secondDropped] ∧
    attachedFiles (dispatch "imgEncodeUpload" dropTwo
        (BinaryVariant.setupFileUpload "imgEncodeUpload" "encodeImageFile" "imgEncodePreview"
          "image" uploadSlot)) "encodeImageFile"
      = some [firstDropped, secondDropped] ∧
    some [firstDropped, secondDropped] ≠ some [firstDropped]) ∧
    previewReads (newEffects uploadSlot (dispatch "imgEncodeUpload" dropTwo
        (UrlVariant.setupFileUpload "imgEncodeUpload" "encodeImageFile" "imgEncodePreview"
          "image"
          (UrlVariant.setupFileUpload "imgEncodeUpload" "encodeImageFile" "imgEncodePreview"
            "image" uploadSlot))))
      = [(firstDropped, "imgEncodePreview", "image"),
          (firstDropped, "imgEncodePreview", "image")] :=
  ⟨⟨by decide, by decide, by decide⟩, by decide⟩

/-- C8, amended. When the zone, the file input and the preview surface exist and the
zone carries no listener other than those of one `setupFileUpload` call (listeners of
other elements may be bound before and after it), a drop of two files replaces the
input's file list by the dropped list (both files), and starts exactly one preview
render, reading the first file for the bound surface and media kind; in both variants. -/
theorem drop_two_files (zone fileInputId previewId type : String) (w : World)
    (later : List Listener) (uploadArea fileInput preview : Element) (first second : File)
    (h0 : ∀ l ∈ w.listeners, l.target ≠ zone)
    (h0l : ∀ l ∈ later, l.target ≠ zone)
    (h1 : getElementById w.page zone = some uploadArea)
    (h2 : getElementById w.page fileInputId = some fileInput)
    (h3 : getElementById w.page previewId = some preview) :
    (attachedFiles (dispatch zone ⟨"drop", some [first, second]⟩
        ((UrlVariant.setupFileUpload zone fileInputId previewId type w).listen later))
        fileInputId = some [first, second] ∧
      previewReads (newEffects w (dispatch zone ⟨"drop", some [first, second]⟩
        ((UrlVariant.setupFileUpload zone fileInputId previewId type w).listen later)))
        = [(first, previewId, type)]) ∧
    (attachedFiles (dispatch zone ⟨"drop", some [first, second]⟩
        ((BinaryVariant.setupFileUpload zone fileInputId previewId type w).listen later))
        fileInputId = some [first, second] ∧
      previewReads (newEffects w (dispatch zone ⟨"drop", some [first, second]⟩
        ((BinaryVariant.setupFileUpload zone fileInputId previewId type w).listen later)))
        = [(first, previewId, type)]) := by
  have hev : ("dragenter" == "drop") = false ∧ ("dragover" == "drop") = false ∧
      ("dragleave" == "drop") = false ∧ ("click" == "drop") = false ∧
      ("change" == "drop") = false := by decide
  obtain ⟨e1, e2, e3, e4, e5⟩ := hev
  have hpre : ∀ (rest : List Listener) (v : World),
      runListeners zone ⟨"drop", some [first, second]⟩ (w.listeners ++ rest) v
        = runListeners zone ⟨"drop", some [first, second]⟩ rest v :=
    fun rest v => runListeners_skip zone _ w.listeners rest v h0
  have hlater : ∀ v : World, runListeners zone ⟨"drop", some [first, second]⟩ later v = v :=
    fun v => runListeners_none zone _ later v h0l
  have hsome : ∀ (v : World), v.page = w.page →
      (getElementById (v.update zone (classListRemove "drag-over")).page fileInputId).isSome
        = true := by
    intro v hv
    rw [getElementById_update v fileInputId zone _ (classListRemove_id "drag-over"), hv, h2]
    rfl
  constructor
  · simp only [dispatch, UrlVariant.setupFileUpload, h1, h2, h3, World.listen,
      List.append_assoc, hpre, List.cons_append, List.nil_append, runListeners,
      beq_self_eq_true, Bool.true_and, e1, e2, e3, e4, e5,
      Bool.and_false, Bool.false_eq_true, if_false, if_true, runAction, hlater]
    rw [handleFileSelect_after_attach]
    · refine ⟨attachedFiles_after_attach fileInputId _ [first, second] _ (hsome _ rfl), ?_⟩
      simp [newEffects, emit_log, update_log, previewReads]
    · exact hsome _ rfl
  · simp only [dispatch, BinaryVariant.setupFileUpload, h1, h2, h3, World.listen,
      List.append_assoc, hpre, List.cons_append, List.nil_append, runListeners,
      beq_self_eq_true, Bool.true_and, e1, e2, e3, e4, e5,
      Bool.and_false, Bool.false_eq_true, if_false, if_true, runAction, hlater]
    rw [handleFileSelect_after_attach]
    · refine ⟨attachedFiles_after_attach fileInputId _ [first, second] _ ?_, ?_⟩
      · rw [emit_page]
        exact hsome _ rfl
      · simp [newEffects, emit_log, update_log, previewReads]
    · rw [emit_page]
      exact hsome _ rfl

/-- Witness of C8, amended: the second image slot of a page whose first slot is bound
before it and whose encode button is bound after it. -/
theorem drop_two_files_witness :
    ((∀ l ∈ boundBefore.listeners, l.target ≠ "imgDecodeUpload") ∧
      (∀ l ∈ boundAfter, l.target ≠ "imgDecodeUpload") ∧
      getElementById boundBefore.page "imgDecodeUpload" = some (blank "imgDecodeUpload")) ∧
    (attachedFiles (dispatch "imgDecodeUpload" ⟨"drop", some [firstDropped, secondDropped]⟩
        ((UrlVariant.setupFileUpload "imgDecodeUpload" "decodeImageFile" "imgDecodePreview"
          "image" boundBefore).listen boundAfter)) "decodeImageFile"
        = some [firstDropped, secondDropped] ∧
      previewReads (newEffects boundBefore (dispatch "imgDecodeUpload"
        ⟨"drop", some [firstDropped, secondDropped]⟩
        ((UrlVariant.setupFileUpload "imgDecodeUpload" "decodeImageFile" "imgDecodePreview"
          "image" boundBefore).listen boundAfter)))
        = [(firstDropped, "imgDecodePreview", "image")]) ∧
    (attachedFiles (dispatch "imgDecodeUpload" ⟨"drop", some [firstDropped, secondDropped]⟩
        ((BinaryVariant.setupFileUpload "imgDecodeUpload" "decodeImageFile" "imgDecodePreview"
          "image" boundBefore).listen boundAfter)) "decodeImageFile"
        = some [firstDropped, secondDropped] ∧
      previewReads (newEffects boundBefore (dispatch "imgDecodeUpload"
        ⟨"drop", some [firstDropped, secondDropped]⟩
        ((BinaryVariant.setupFileUpload "imgDecodeUpload" "decodeImageFile" "imgDecodePreview"
          "image" boundBefore).listen boundAfter)))
        = [(firstDropped, "imgDecodePreview", "image")]) :=
  ⟨⟨by decide, by decide, by decide⟩,
    drop_two_files "imgDecodeUpload" "decodeImageFile" "imgDecodePreview" "image" boundBefore
      boundAfter (blank "imgDecodeUpload") (fileInputWith "decodeImageFile" [])
      (blank "imgDecodePreview") firstDropped secondDropped (by decide) (by decide)
      (by decide) (by decide) (by decide)⟩

/-! ### C9 -/

theorem splitTokens_ne_nil (cs : List Char) : splitTokens cs ≠ [] := by
  cases cs with
  | nil => simp [splitTokens]
  | cons c cs =>
    unfold splitTokens
    split
    · simp
    · split <;> simp

theorem splitTokens_cons (x : Char) (xs : List Char) :
    splitTokens (x :: xs) =
      if isAsciiWhitespace x then [] :: splitTokens xs
      else match splitTokens xs with
        | [] => [[x]]
        | t :: ts => (x :: t) :: ts := rfl

theorem splitTokens_append_sep (xs ys : List Char) (c : Char) (hc : isAsciiWhitespace c = true) :
    splitTokens (xs ++ c :: ys) = splitTokens xs ++ splitTokens ys := by
  induction xs with
  | nil => simp [splitTokens, hc]
  | cons x xs ih =>
    rw [List.cons_append, splitTokens_cons, splitTokens_cons, ih]
    cases hx : isAsciiWhitespace x
    · simp only [Bool.false_eq_true, if_false]
      cases hs : splitTokens xs with
      | nil => exact absurd hs (splitTokens_ne_nil xs)
      | cons t ts => rfl
    · rfl

theorem classTokens_activate (c : String) :
    classTokens (c ++ " active") = classTokens c ++ ["active".data] := by
  unfold classTokens
  have h : (c ++ " active").data = c.data ++ ' ' :: "active".data := by
    rw [String.data_append]
  rw [h, splitTokens_append_sep _ _ ' ' (by decide), List.filter_append]
  rfl

theorem head_token_prefix (cs t : List Char) (ts : List (List Char))
    (h : splitTokens cs = t :: ts) : t.isPrefixOf cs = true := by
  induction cs generalizing t ts with
  | nil =>
    simp only [splitTokens, List.cons.injEq] at h
    rw [← h.1]
    rfl
  | cons c cs ih =>
    rw [splitTokens_cons] at h
    cases hc : isAsciiWhitespace c
    · rw [hc] at h
      simp only [Bool.false_eq_true, if_false] at h
      cases hs : splitTokens cs with
      | nil => exact absurd hs (splitTokens_ne_nil cs)
      | cons t0 ts0 =>
        rw [hs] at h
        simp only [List.cons.injEq] at h
        rw [← h.1]
        simp only [List.isPrefixOf, beq_self_eq_true, Bool.true_and]
        exact ih t0 ts0 hs
    · rw [hc] at h
      simp only [if_true, List.cons.injEq] at h
      rw [← h.1]
      rfl

theorem isPrefixOf_contains (pat cs : List Char) (h : pat.isPrefixOf cs = true) :
    containsChars pat cs = true := by
  cases cs with
  | nil =>
    cases pat with
    | nil => rfl
    | cons p ps => simp [List.isPrefixOf] at h
  | cons c cs => simp only [containsChars, h, Bool.true_or]

theorem token_contains (cs t : List Char) (ht : t ∈ splitTokens cs) (hne : t ≠ []) :
    containsChars t cs = true := by
  induction cs with
  | nil =>
    simp only [splitTokens, List.mem_singleton] at ht
    exact absurd ht hne
  | cons c cs ih =>
    rw [splitTokens_cons] at ht
    cases hc : isAsciiWhitespace c
    · rw [hc] at ht
      simp only [Bool.false_eq_true, if_false] at ht
      cases hs : splitTokens cs with
      | nil => exact absurd hs (splitTokens_ne_nil cs)
      | cons t0 ts0 =>
        rw [hs] at ht
        simp only [List.mem_cons] at ht
        rcases ht with h1 | h1
        · rw [h1]
          simp only [containsChars, List.isPrefixOf, beq_self_eq_true, Bool.true_and,
            head_token_prefix cs t0 ts0 hs, Bool.true_or]
        · have h2 : t ∈ splitTokens cs := by rw [hs]; exact List.mem_cons_of_mem _ h1
          simp only [containsChars, ih h2, Bool.or_true]
    · rw [hc] at ht
      simp only [if_true, List.mem_cons] at ht
      rcases ht with h1 | h1
      · exact absurd h1 hne
      · simp only [containsChars, ih h1, Bool.or_true]

theorem replaceFirstChars_absent (pat rep cs : List Char)
    (h : containsChars pat cs = false) : replaceFirstChars pat rep cs = cs := by
  induction cs with
  | nil =>
    simp only [containsChars] at h
    simp [replaceFirstChars, h]
  | cons c cs ih =>
    simp only [containsChars, Bool.or_eq_false_iff] at h
    simp [replaceFirstChars, h.1, ih h.2]

theorem marker_absent (cs : List Char) (h : containsChars "active".data cs = false) :
    containsChars " active".data cs = false := by
  induction cs with
  | nil => rfl
  | cons c cs ih =>
    simp only [containsChars, Bool.or_eq_false_iff] at h ⊢
    refine ⟨?_, ih h.2⟩
    cases hp : List.isPrefixOf " active".data (c :: cs) with
    | false => rfl
    | true =>
      have h1 : List.isPrefixOf "active".data cs = true := by
        have : " active".data = ' ' :: "active".data := rfl
        rw [this] at hp
        simp only [List.isPrefixOf, Bool.and_eq_true] at hp
        exact hp.2
      rw [isPrefixOf_contains _ _ h1] at h
      exact absurd h.2 (by simp)

theorem prefix_before_marker (cs : List Char)
    (h : List.isPrefixOf "active".data (cs ++ " active".data) = true) :
    List.isPrefixOf "active".data cs = true := by
  have e1 : "active".data = ['a', 'c', 't', 'i', 'v', 'e'] := rfl
  have e2 : " active".data = [' ', 'a', 'c', 't', 'i', 'v', 'e'] := rfl
  rw [e1] at h ⊢
  rw [e2] at h
  rcases cs with _ | ⟨c1, _ | ⟨c2, _ | ⟨c3, _ | ⟨c4, _ | ⟨c5, _ | ⟨c6, cs⟩⟩⟩⟩⟩⟩ <;>
    simp [List.isPrefixOf] at h ⊢
  exact h

theorem replaceFirstChars_marker (cs : List Char) (h : containsChars "active".data cs = false) :
    replaceFirstChars " active".data [] (cs ++ " active".data) = cs := by
  induction cs with
  | nil => rfl
  | cons c cs ih =>
    simp only [containsChars, Bool.or_eq_false_iff] at h
    have hnot : List.isPrefixOf " active".data (c :: (cs ++ " active".data)) = false := by
      cases hp : List.isPrefixOf " active".data (c :: (cs ++ " active".data)) with
      | false => rfl
      | true =>
        have e : " active".data = ' ' :: "active".data := rfl
        rw [e] at hp
        simp only [List.isPrefixOf, Bool.and_eq_true] at hp
        have h1 := prefix_before_marker cs (by rw [e]; exact hp.2)
        rw [isPrefixOf_contains _ _ h1] at h
        exact absurd h.2 (by simp)
    rw [List.cons_append, replaceFirstChars, hnot]
    simp only [Bool.false_eq_true, if_false, ih h.2]

theorem no_active_token (base : String) (h : containsChars "active".data base.data = false) :
    (classTokens base).contains "active".data = false := by
  cases hc : (classTokens base).contains "active".data with
  | false => rfl
  | true =>
    have hm : "active".data ∈ classTokens base := by simpa using hc
    unfold classTokens at hm
    rw [token_contains base.data "active".data (List.mem_filter.1 hm).1 (by decide)] at h
    exact absurd h (by simp)

theorem hasClass_activate (name : String) (e : Element) :
    hasClass name (activate e) = (hasClass name e || name.data == "active".data) := by
  by_cases h : name.data = "active".data <;>
    simp [hasClass, activate, classTokens_activate, h]

theorem replaceFirst_base (base : String) (h : containsChars "active".data base.data = false) :
    replaceFirst " active" "" base = base := by
  unfold replaceFirst
  rw [replaceFirstChars_absent _ _ _ (marker_absent _ h)]

theorem replaceFirst_marked (base : String) (h : containsChars "active".data base.data = false) :
    replaceFirst " active" "" (base ++ " active") = base := by
  unfold replaceFirst
  rw [String.data_append]
  exact congrArg String.mk (replaceFirstChars_marker base.data h)

/-- What `deactivate` does to a class name in marker form. -/
theorem deactivate_markerForm (e : Element) (h : markerForm e.className) :
    (deactivate e).id = e.id ∧ (deactivate e).display = e.display ∧
    containsChars "active".data (deactivate e).className.data = false ∧
    hasClass "active" (deactivate e) = false ∧
    hasClass "tablinks" (deactivate e) = hasClass "tablinks" e ∧
    hasClass "tabcontent" (deactivate e) = hasClass "tabcontent" e := by
  obtain ⟨base, hb, hc | hc⟩ := h
  · have hd : (deactivate e).className = base := by
      simp only [deactivate, hc, replaceFirst_base base hb]
    refine ⟨rfl, rfl, by rw [hd]; exact hb, ?_, ?_, ?_⟩
    · simp only [hasClass, hd, no_active_token base hb]
    · simp only [hasClass, hd, hc]
    · simp only [hasClass, hd, hc]
  · have hd : (deactivate e).className = base := by
      simp only [deactivate, hc, replaceFirst_marked base hb]
    refine ⟨rfl, rfl, by rw [hd]; exact hb, ?_, ?_, ?_⟩
    · simp only [hasClass, hd, no_active_token base hb]
    · have hne : ¬ "tablinks".data = "active".data := by decide
      simp [hasClass, hd, hc, classTokens_activate, hne]
    · have hne : ¬ "tabcontent".data = "active".data := by decide
      simp [hasClass, hd, hc, classTokens_activate, hne]

theorem mapFrom_zero (p : Element → Bool) (f : Element → Element) (l : List Element) :
    mapFrom p f 0 l = l.map (fun e => if p e then f e else e) := by
  induction l with
  | nil => rfl
  | cons e rest ih =>
    by_cases h : p e = true <;> simp [mapFrom, h, ih]

theorem mapFrom_none (p : Element → Bool) (f : Element → Element) (i : Nat) (l : List Element)
    (h : modifyNthMatch p f i l = none) : mapFrom p f i l = l := by
  induction l generalizing i with
  | nil => rfl
  | cons e rest ih =>
    unfold modifyNthMatch at h
    unfold mapFrom
    by_cases hp : p e = true
    · simp only [hp, if_true] at h ⊢
      cases i with
      | zero => simp at h
      | succ j =>
        simp only [Option.map_eq_none'] at h
        simp only [ih j h]
    · simp only [hp, if_false, Option.map_eq_none', Bool.false_eq_true] at h ⊢
      rw [ih i h]

theorem mapFrom_some (p : Element → Bool) (f : Element → Element) (Good : Element → Prop)
    (hp : ∀ e, Good e → p e = true → p (f e) = true)
    (hG : ∀ e, Good e → p e = true → Good (f e))
    (i : Nat) (l l1 : List Element) (hl : ∀ e ∈ l, Good e)
    (h : modifyNthMatch p f i l = some l1) :
    l1.length = l.length ∧ i < l.length ∧ (∀ e ∈ l1, Good e) ∧
      mapFrom p f (i + 1) l1 = mapFrom p f i l := by
  induction l generalizing i l1 with
  | nil => simp [modifyNthMatch] at h
  | cons e rest ih =>
    have hrest : ∀ x ∈ rest, Good x := fun x hx => hl x (List.mem_cons_of_mem _ hx)
    have he : Good e := hl e (List.mem_cons_self _ _)
    unfold modifyNthMatch at h
    by_cases hpe : p e = true
    · simp only [hpe, if_true] at h
      cases i with
      | zero =>
        simp only [Option.some.injEq] at h
        subst h
        refine ⟨rfl, by simp, ?_, ?_⟩
        · intro x hx
          rcases List.mem_cons.1 hx with hx | hx
          · rw [hx]; exact hG e he hpe
          · exact hrest x hx
        · simp [mapFrom, hpe, hp e he hpe]
      | succ j =>
        simp only [Option.map_eq_some'] at h
        obtain ⟨r, hr, hl1⟩ := h
        subst hl1
        obtain ⟨h1, h2, h3, h4⟩ := ih j r hrest hr
        refine ⟨by simp [h1], by simp [h2], ?_, ?_⟩
        · intro x hx
          rcases List.mem_cons.1 hx with hx | hx
          · rw [hx]; exact he
          · exact h3 x hx
        · simp [mapFrom, hpe, h4]
    · simp only [hpe, if_false, Option.map_eq_some', Bool.false_eq_true] at h
      obtain ⟨r, hr, hl1⟩ := h
      subst hl1
      obtain ⟨h1, h2, h3, h4⟩ := ih i r hrest hr
      refine ⟨by simp [h1], by simp; omega, ?_, ?_⟩
      · intro x hx
        rcases List.mem_cons.1 hx with hx | hx
        · rw [hx]; exact he
        · exact h3 x hx
      · simp [mapFrom, hpe, h4]

theorem forEachLive_mapFrom (p : Element → Bool) (f : Element → Element) (Good : Element → Prop)
    (hp : ∀ e, Good e → p e = true → p (f e) = true)
    (hG : ∀ e, Good e → p e = true → Good (f e))
    (fuel i : Nat) (l : List Element) (hl : ∀ e ∈ l, Good e)
    (hfuel : l.length < fuel + i) (hi : i ≤ l.length) :
    forEachLive p f fuel i l = some (mapFrom p f i l) := by
  induction fuel generalizing i l with
  | zero => omega
  | succ fuel ih =>
    unfold forEachLive
    cases hm : modifyNthMatch p f i l with
    | none => simp [mapFrom_none p f i l hm]
    | some l1 =>
      obtain ⟨h1, h2, h3, h4⟩ := mapFrom_some p f Good hp hG i l l1 hl hm
      simp only []
      rw [ih (i + 1) l1 h3 (by omega) (by omega), h4]

/-- Under a membership-preserving body the live loop visits every member once. -/
theorem forEachLive_map (p : Element → Bool) (f : Element → Element) (Good : Element → Prop)
    (hp : ∀ e, Good e → p e = true → p (f e) = true)
    (hG : ∀ e, Good e → p e = true → Good (f e))
    (l : List Element) (hl : ∀ e ∈ l, Good e) :
    forEachLive p f (l.length + 1) 0 l = some (l.map (fun e => if p e then f e else e)) := by
  rw [forEachLive_mapFrom p f Good hp hG (l.length + 1) 0 l hl (by omega) (by omega),
    mapFrom_zero]

theorem indicesWhere_none (q : Element → Bool) (l : List Element)
    (h : ∀ (i : Nat) (e : Element), l[i]? = some e → q e = false) : indicesWhere q l = [] := by
  induction l with
  | nil => rfl
  | cons e rest ih =>
    have h0 : q e = false := h 0 e (by simp)
    have hr : indicesWhere q rest = [] := ih (fun i x hx => h (i + 1) x (by simpa using hx))
    simp [indicesWhere, h0, hr]

theorem indicesWhere_singleton (q : Element → Bool) (l : List Element) (k : Nat)
    (hk : k < l.length)
    (h : ∀ (i : Nat) (e : Element), l[i]? = some e → (q e = true ↔ i = k)) :
    indicesWhere q l = [k] := by
  induction l generalizing k with
  | nil => simp at hk
  | cons e rest ih =>
    cases k with
    | zero =>
      have h0 : q e = true := (h 0 e (by simp)).2 rfl
      have hr : indicesWhere q rest = [] := by
        apply indicesWhere_none
        intro i x hx
        cases hq : q x with
        | false => rfl
        | true =>
          have := (h (i + 1) x (by simpa using hx)).1 hq
          omega
      simp [indicesWhere, h0, hr]
    | succ j =>
      have h0 : q e = false := by
        cases hq : q e with
        | false => rfl
        | true =>
          have := (h 0 e (by simp)).1 hq
          omega
      have hr : indicesWhere q rest = [j] := by
        apply ih j (by simpa using hk)
        intro i x hx
        rw [h (i + 1) x (by simpa using hx)]
        omega
      simp [indicesWhere, h0, hr]

theorem firstIndex_spec (p : Element → Bool) (l : List Element) (k : Nat)
    (h : firstIndex p l = some k) :
    (∃ e, l[k]? = some e ∧ p e = true) ∧ ∀ (j : Nat) (e : Element), j < k → l[j]? = some e → p e = false := by
  induction l generalizing k with
  | nil => simp [firstIndex] at h
  | cons x rest ih =>
    unfold firstIndex at h
    by_cases hp : p x = true
    · simp only [hp, if_true, Option.some.injEq] at h
      subst h
      exact ⟨⟨x, by simp, hp⟩, fun j e hj _ => absurd hj (by omega)⟩
    · simp only [hp, if_false, Option.map_eq_some', Bool.false_eq_true] at h
      obtain ⟨k0, hk0, hk⟩ := h
      subst hk
      obtain ⟨⟨e, he, hpe⟩, hlt⟩ := ih k0 hk0
      refine ⟨⟨e, by simpa using he, hpe⟩, ?_⟩
      intro j y hj hy
      cases j with
      | zero =>
        simp at hy
        subst hy
        simpa using hp
      | succ j0 => exact hlt j0 y (by omega) (by simpa using hy)

theorem firstIndex_of_spec (p : Element → Bool) (l : List Element) (k : Nat)
    (h1 : ∃ e, l[k]? = some e ∧ p e = true)
    (h2 : ∀ (j : Nat) (e : Element), j < k → l[j]? = some e → p e = false) : firstIndex p l = some k := by
  induction l generalizing k with
  | nil => simp at h1
  | cons x rest ih =>
    unfold firstIndex
    cases k with
    | zero =>
      obtain ⟨e, he, hpe⟩ := h1
      simp at he
      subst he
      simp [hpe]
    | succ k0 =>
      have hx : p x = false := h2 0 x (by omega) (by simp)
      obtain ⟨e, he, hpe⟩ := h1
      have := ih k0 ⟨e, by simpa using he, hpe⟩
        (fun j y hj hy => h2 (j + 1) y (by omega) (by simpa using hy))
      simp [hx, this]

theorem modifyFirst_eq_modify (p : Element → Bool) (f : Element → Element) (l : List Element)
    (k : Nat) (h : firstIndex p l = some k) : modifyFirst p f l = l.modify f k := by
  induction l generalizing k with
  | nil => simp [firstIndex] at h
  | cons x rest ih =>
    unfold firstIndex at h
    unfold modifyFirst
    by_cases hp : p x = true
    · simp only [hp, if_true, Option.some.injEq] at h
      subst h
      simp [hp]
    · simp only [hp, if_false, Option.map_eq_some', Bool.false_eq_true] at h
      obtain ⟨k0, hk0, hk⟩ := h
      subst hk
      simp [hp, ih k0 hk0]

theorem find_of_firstIndex (p : Element → Bool) (l : List Element) (k : Nat)
    (h : firstIndex p l = some k) : l.find? p = l[k]? := by
  induction l generalizing k with
  | nil => simp [firstIndex] at h
  | cons x rest ih =>
    unfold firstIndex at h
    by_cases hp : p x = true
    · simp only [hp, if_true, Option.some.injEq] at h
      subst h
      simp [hp]
    · simp only [hp, if_false, Option.map_eq_some', Bool.false_eq_true] at h
      obtain ⟨k0, hk0, hk⟩ := h
      subst hk
      simp [hp, ih k0 hk0]

theorem firstIndex_map (p : Element → Bool) (g : Element → Element) (l : List Element)
    (h : ∀ e, p (g e) = p e) : firstIndex p (l.map g) = firstIndex p l := by
  induction l with
  | nil => rfl
  | cons x rest ih => simp [firstIndex, h, ih]

theorem hideIfPanel_className (e : Element) : (hideIfPanel e).className = e.className := by
  unfold hideIfPanel
  split <;> rfl

theorem hideIfPanel_id (e : Element) : (hideIfPanel e).id = e.id := by
  unfold hideIfPanel
  split <;> rfl

theorem deactivateIfTrigger_id (e : Element) : (deactivateIfTrigger e).id = e.id := by
  unfold deactivateIfTrigger
  split <;> rfl

theorem hasClass_congr (name : String) (a b : Element) (h : a.className = b.className) :
    hasClass name a = hasClass name b := by
  unfold hasClass
  rw [h]

theorem openTab_run (t k : Nat) (x : String) (w : World)
    (hwf : WellMarked w.page) (hx : x ≠ "")
    (hk : firstIndex (fun e => e.id == x) w.page = some k)
    (ht : t < w.page.length) :
    ∃ page1 : List Element, openTab t x w = ({ w with page := page1 }, .done) ∧
      page1.length = w.page.length ∧
      ∀ i : Nat, page1[i]? = (w.page[i]?).map (afterOpenTab t k i) := by
  have h1 : forEachLive (hasClass "tabcontent") hidePanel (w.page.length + 1) 0 w.page
      = some (w.page.map hideIfPanel) :=
    forEachLive_map (hasClass "tabcontent") hidePanel (fun _ => True)
      (fun e _ h => h) (fun _ _ _ => trivial) w.page (fun _ _ => trivial)
  have h2 : forEachLive (hasClass "tablinks") deactivate ((w.page.map hideIfPanel).length + 1) 0
      (w.page.map hideIfPanel) = some ((w.page.map hideIfPanel).map deactivateIfTrigger) :=
    forEachLive_map (hasClass "tablinks") deactivate
      (fun e => hasClass "tablinks" e = true → markerForm e.className)
      (fun e hg h => by rw [(deactivate_markerForm e (hg h)).2.2.2.2.1]; exact h)
      (fun e hg h _ => ⟨(deactivate e).className, (deactivate_markerForm e (hg h)).2.2.1,
        Or.inl rfl⟩)
      (w.page.map hideIfPanel)
      (by
        intro e he hc
        obtain ⟨e0, he0, rfl⟩ := List.mem_map.1 he
        rw [hideIfPanel_className]
        rw [hasClass_congr _ _ _ (hideIfPanel_className e0)] at hc
        exact hwf e0 he0 hc)
  have hid : ∀ e : Element, ((deactivateIfTrigger (hideIfPanel e)).id == x) = (e.id == x) := by
    intro e
    rw [deactivateIfTrigger_id, hideIfPanel_id]
  have hk2 : firstIndex (fun e => e.id == x)
      ((w.page.map hideIfPanel).map deactivateIfTrigger) = some k := by
    rw [List.map_map, firstIndex_map _ _ _ hid, hk]
  obtain ⟨⟨e2, hget, _⟩, _⟩ := firstIndex_spec _ _ _ hk2
  have hfind : getElementById ((w.page.map hideIfPanel).map deactivateIfTrigger) x = some e2 := by
    unfold getElementById
    rw [if_neg hx, find_of_firstIndex _ _ _ hk2, hget]
  refine ⟨(((w.page.map hideIfPanel).map deactivateIfTrigger).modify
    (fun e => { e with display := "block" }) k).modify activate t, ?_, by simp, ?_⟩
  · unfold openTab
    simp only [h1]
    rw [List.length_map] at h2
    simp only [List.length_map, h2, hfind, modifyFirst_eq_modify _ _ _ _ hk2,
      List.length_modify, ht, if_true]
  · intro i
    simp only [List.getElem?_modify, List.getElem?_map, Option.map_eq_map, Option.map_map]
    cases w.page[i]? with
    | none => rfl
    | some e => simp [afterOpenTab, Function.comp]

theorem deactivateIfTrigger_props (e : Element)
    (hm : hasClass "tablinks" e = true → markerForm e.className) :
    (deactivateIfTrigger e).id = e.id ∧ (deactivateIfTrigger e).display = e.display ∧
    hasClass "tabcontent" (deactivateIfTrigger e) = hasClass "tabcontent" e ∧
    hasClass "tablinks" (deactivateIfTrigger e) = hasClass "tablinks" e ∧
    (hasClass "tablinks" e = true →
      containsChars "active".data (deactivateIfTrigger e).className.data = false ∧
      hasClass "active" (deactivateIfTrigger e) = false) := by
  unfold deactivateIfTrigger
  by_cases b : hasClass "tablinks" e = true
  · obtain ⟨h1, h2, h3, h4, h5, h6⟩ := deactivate_markerForm e (hm b)
    rw [if_pos b]
    exact ⟨h1, h2, h6, h5, fun _ => ⟨h3, h4⟩⟩
  · rw [if_neg b]
    exact ⟨rfl, rfl, rfl, rfl, fun h => absurd h b⟩

/-- The element at position `i` after one `openTab` call (panel at `k`, trigger at `t`). -/
theorem afterOpenTab_props (t k i : Nat) (e : Element)
    (hm : hasClass "tablinks" e = true → markerForm e.className) :
    (afterOpenTab t k i e).id = e.id ∧
    hasClass "tabcontent" (afterOpenTab t k i e) = hasClass "tabcontent" e ∧
    hasClass "tablinks" (afterOpenTab t k i e) = hasClass "tablinks" e ∧
    (hasClass "tabcontent" e = true →
      ((afterOpenTab t k i e).display != "none") = decide (k = i)) ∧
    (hasClass "tablinks" e = true →
      markerForm (afterOpenTab t k i e).className ∧
      hasClass "active" (afterOpenTab t k i e) = decide (t = i)) := by
  have hm1 : hasClass "tablinks" (hideIfPanel e) = true → markerForm (hideIfPanel e).className := by
    rw [hideIfPanel_className, hasClass_congr _ _ _ (hideIfPanel_className e)]
    exact hm
  obtain ⟨p1, p2, p3, p4, p5⟩ := deactivateIfTrigger_props (hideIfPanel e) hm1
  rw [hasClass_congr _ _ _ (hideIfPanel_className e)] at p3 p4 p5
  rw [hideIfPanel_id] at p1
  have hdisp : hasClass "tabcontent" e = true →
      (deactivateIfTrigger (hideIfPanel e)).display = "none" := by
    intro h
    rw [p2]
    simp [hideIfPanel, h, hidePanel]
  have hne1 : ("tabcontent".data == "active".data) = false := by decide
  have hne2 : ("tablinks".data == "active".data) = false := by decide
  have hblock : ("block" != "none") = true := by decide
  unfold afterOpenTab
  by_cases hk : k = i <;> by_cases ht : t = i
  · simp only [hk, ht, if_true, hasClass_activate, hne1, hne2, Bool.or_false, decide_True]
    refine ⟨p1, p3, p4, fun _ => hblock, fun h => ⟨?_, by simp⟩⟩
    exact ⟨(deactivateIfTrigger (hideIfPanel e)).className, (p5 h).1, Or.inr rfl⟩
  · simp only [hk, ht, if_true, if_false, decide_True, decide_False]
    refine ⟨p1, p3, p4, fun _ => hblock, fun h => ⟨?_, (p5 h).2⟩⟩
    exact ⟨(deactivateIfTrigger (hideIfPanel e)).className, (p5 h).1, Or.inl rfl⟩
  · simp only [hk, ht, if_true, if_false, hasClass_activate, hne1, hne2, Bool.or_false,
      decide_True, decide_False]
    refine ⟨p1, p3, p4, fun h => ?_, fun h => ⟨?_, by simp⟩⟩
    · show ((deactivateIfTrigger (hideIfPanel e)).display != "none") = false
      rw [hdisp h]
      decide
    · exact ⟨(deactivateIfTrigger (hideIfPanel e)).className, (p5 h).1, Or.inr rfl⟩
  · simp only [hk, ht, if_false, decide_False]
    refine ⟨p1, p3, p4, fun h => ?_, fun h => ⟨?_, (p5 h).2⟩⟩
    · rw [hdisp h]
      decide
    · exact ⟨(deactivateIfTrigger (hideIfPanel e)).className, (p5 h).1, Or.inl rfl⟩

/-- One `openTab` call on a well-marked page, for the panel found at position `k` and
a trigger at position `t`. -/
theorem openTab_step (t k : Nat) (x : String) (w : World)
    (hwf : WellMarked w.page) (hx : x ≠ "")
    (hk : firstIndex (fun e => e.id == x) w.page = some k)
    (hpanel : ∃ e, w.page[k]? = some e ∧ hasClass "tabcontent" e = true)
    (ht : ∃ e, w.page[t]? = some e ∧ hasClass "tablinks" e = true) :
    ∃ page1 : List Element, openTab t x w = ({ w with page := page1 }, .done) ∧
      WellMarked page1 ∧ visiblePanels page1 = [k] ∧ activeTriggers page1 = [t] ∧
      (∀ (y : String) (j : Nat), firstIndex (fun e => e.id == y) w.page = some j →
        firstIndex (fun e => e.id == y) page1 = some j) ∧
      (∀ (name : String) (j : Nat), name = "tabcontent" ∨ name = "tablinks" →
        (∃ e, w.page[j]? = some e ∧ hasClass name e = true) →
        ∃ e, page1[j]? = some e ∧ hasClass name e = true) := by
  obtain ⟨panel, hpk, hpc⟩ := hpanel
  obtain ⟨trigger, htt, htc⟩ := ht
  have hklt : k < w.page.length := by
    rcases Nat.lt_or_ge k w.page.length with h | h
    · exact h
    · rw [List.getElem?_eq_none h] at hpk
      cases hpk
  have htlt : t < w.page.length := by
    rcases Nat.lt_or_ge t w.page.length with h | h
    · exact h
    · rw [List.getElem?_eq_none h] at htt
      cases htt
  obtain ⟨page1, hrun, hlen, hpt⟩ := openTab_run t k x w hwf hx hk htlt
  have hback : ∀ (i : Nat) (e1 : Element), page1[i]? = some e1 →
      ∃ e, w.page[i]? = some e ∧ e1 = afterOpenTab t k i e ∧
        (hasClass "tablinks" e = true → markerForm e.className) := by
    intro i e1 h
    rw [hpt i] at h
    cases he : w.page[i]? with
    | none => rw [he] at h; cases h
    | some e =>
      rw [he] at h
      simp only [Option.map_some', Option.some.injEq] at h
      exact ⟨e, rfl, h.symm, hwf e (List.getElem?_mem he)⟩
  have hfwd : ∀ (i : Nat) (e : Element), w.page[i]? = some e →
      page1[i]? = some (afterOpenTab t k i e) := by
    intro i e h
    rw [hpt i, h]
    rfl
  refine ⟨page1, hrun, ?_, ?_, ?_, ?_, ?_⟩
  · intro e1 he1 hc
    obtain ⟨i, hi⟩ := List.getElem?_of_mem he1
    obtain ⟨e, _, rfl, hm⟩ := hback i e1 hi
    obtain ⟨_, _, q3, _, q5⟩ := afterOpenTab_props t k i e hm
    exact (q5 (q3 ▸ hc)).1
  · apply indicesWhere_singleton _ _ _ (by omega)
    intro i e1 hi
    obtain ⟨e, he, rfl, hm⟩ := hback i e1 hi
    obtain ⟨_, q2, _, q4, _⟩ := afterOpenTab_props t k i e hm
    rw [q2]
    by_cases hc : hasClass "tabcontent" e = true
    · rw [hc, q4 hc]
      simp [eq_comm]
    · have hne : i ≠ k := by
        intro hik
        subst hik
        rw [he] at hpk
        cases hpk
        exact hc hpc
      simp [hc, hne]
  · apply indicesWhere_singleton _ _ _ (by omega)
    intro i e1 hi
    obtain ⟨e, he, rfl, hm⟩ := hback i e1 hi
    obtain ⟨_, _, q3, _, q5⟩ := afterOpenTab_props t k i e hm
    rw [q3]
    by_cases hc : hasClass "tablinks" e = true
    · rw [hc, (q5 hc).2]
      simp [eq_comm]
    · have hne : i ≠ t := by
        intro hit
        subst hit
        rw [he] at htt
        cases htt
        exact hc htc
      simp [hc, hne]
  · intro y j hj
    obtain ⟨⟨e, he, hpe⟩, hlt⟩ := firstIndex_spec _ _ _ hj
    apply firstIndex_of_spec
    · refine ⟨afterOpenTab t k j e, hfwd j e he, ?_⟩
      rw [(afterOpenTab_props t k j e (hwf e (List.getElem?_mem he))).1]
      exact hpe
    · intro i e1 hij hi
      obtain ⟨e0, he0, rfl, hm⟩ := hback i e1 hi
      rw [(afterOpenTab_props t k i e0 hm).1]
      exact hlt i e0 hij he0
  · intro name j hname ⟨e, he, hc⟩
    refine ⟨afterOpenTab t k j e, hfwd j e he, ?_⟩
    obtain ⟨_, q2, q3, _, _⟩ := afterOpenTab_props t k j e (hwf e (List.getElem?_mem he))
    rcases hname with h | h <;> subst h
    · rw [q2]; exact hc
    · rw [q3]; exact hc

/-- C9, as stated, fails on a page whose markup marks a trigger active with the class
listed first (`class="active tablinks"`): `replace(" active", "")` finds nothing to remove
in it, so after each of the two `openTab` calls two triggers carry the class `active`. -/
theorem openTab_preselected_counterexample :
    (openTab 0 "Image" tabsPagePreselected).2 = .done ∧
    visiblePanels (openTab 0 "Image" tabsPagePreselected).1.page = [3] ∧
    activeTriggers (openTab 0 "Image" tabsPagePreselected).1.page = [0, 2] ∧
    (openTab 1 "Audio" (openTab 0 "Image" tabsPagePreselected).1).2 = .done ∧
    visiblePanels (openTab 1 "Audio" (openTab 0 "Image" tabsPagePreselected).1).1.page = [4] ∧
    activeTriggers (openTab 1 "Audio" (openTab 0 "Image" tabsPagePreselected).1).1.page
      = [1, 2] :=
  ⟨by decide, by decide, by decide, by decide, by decide, by decide⟩

/-- C9, amended. On a page where the class name of every trigger is in marker form (a
text without `active`, optionally followed by `" active"`, the form `openTab` itself
writes), for any two tab ids whose first element is a panel, each activated through a
trigger: `openTab` returns, and after the first call and again after the second exactly
one panel is visible, the one just activated, and exactly one trigger carries the class
`active`, the one just used. -/
theorem openTab_twice (a b : String) (panelA panelB triggerA triggerB : Nat) (w : World)
    (hwf : ∀ e ∈ w.page, hasClass "tablinks" e = true → markerForm e.className)
    (ha : a ≠ "") (hb : b ≠ "")
    (hka : firstIndex (fun e => e.id == a) w.page = some panelA)
    (hkb : firstIndex (fun e => e.id == b) w.page = some panelB)
    (hpa : ∃ e, w.page[panelA]? = some e ∧ hasClass "tabcontent" e = true)
    (hpb : ∃ e, w.page[panelB]? = some e ∧ hasClass "tabcontent" e = true)
    (hta : ∃ e, w.page[triggerA]? = some e ∧ hasClass "tablinks" e = true)
    (htb : ∃ e, w.page[triggerB]? = some e ∧ hasClass "tablinks" e = true) :
    (openTab triggerA a w).2 = .done ∧
    visiblePanels (openTab triggerA a w).1.page = [panelA] ∧
    activeTriggers (openTab triggerA a w).1.page = [triggerA] ∧
    (openTab triggerB b (openTab triggerA a w).1).2 = .done ∧
    visiblePanels (openTab triggerB b (openTab triggerA a w).1).1.page = [panelB] ∧
    activeTriggers (openTab triggerB b (openTab triggerA a w).1).1.page = [triggerB] := by
  obtain ⟨page1, hrun1, hwf1, hv1, ha1, hidx1, hcls1⟩ :=
    openTab_step triggerA panelA a w hwf ha hka hpa hta
  obtain ⟨page2, hrun2, _, hv2, ha2, _, _⟩ :=
    openTab_step triggerB panelB b { w with page := page1 } hwf1 hb (hidx1 b panelB hkb)
      (hcls1 "tabcontent" panelB (Or.inl rfl) hpb) (hcls1 "tablinks" triggerB (Or.inr rfl) htb)
  rw [hrun1, hrun2]
  exact ⟨rfl, hv1, ha1, rfl, hv2, ha2⟩

/-- Witness of C9, amended: the image tab, then the audio tab, on the three-tab page. -/
theorem openTab_twice_witness :
    (firstIndex (fun e => e.id == "Image") tabsPage.page = some 3 ∧
      firstIndex (fun e => e.id == "Audio") tabsPage.page = some 4) ∧
    (openTab 0 "Image" tabsPage).2 = .done ∧
    visiblePanels (openTab 0 "Image" tabsPage).1.page = [3] ∧
    activeTriggers (openTab 0 "Image" tabsPage).1.page = [0] ∧
    (openTab 1 "Audio" (openTab 0 "Image" tabsPage).1).2 = .done ∧
    visiblePanels (openTab 1 "Audio" (openTab 0 "Image" tabsPage).1).1.page = [4] ∧
    activeTriggers (openTab 1 "Audio" (openTab 0 "Image" tabsPage).1).1.page = [1] :=
  ⟨⟨by decide, by decide⟩,
    openTab_twice "Image" "Audio" 3 4 0 1 tabsPage
      (by
        intro e he h
        by_cases hc : e.className = "tablinks"
        · exact ⟨"tablinks", by decide, Or.inl hc⟩
        · exfalso
          simp only [tabsPage, worldOf, List.mem_cons, List.mem_singleton, List.not_mem_nil,
            or_false] at he
          rcases he with rfl | rfl | rfl | rfl | rfl | rfl <;>
            first
              | exact hc rfl
              | exact absurd h (by decide))
      (by decide) (by decide) (by decide) (by decide)
      ⟨_, rfl, by decide⟩ ⟨_, rfl, by decide⟩ ⟨_, rfl, by decide⟩ ⟨_, rfl, by decide⟩⟩

/-! ### The fuel of the live loops is always enough -/

theorem modifyNthMatch_length (p : Element → Bool) (f : Element → Element) (i : Nat)
    (l l1 : List Element) (h : modifyNthMatch p f i l = some l1) :
    l1.length = l.length ∧ i < l.length := by
  induction l generalizing i l1 with
  | nil => simp [modifyNthMatch] at h
  | cons e rest ih =>
    unfold modifyNthMatch at h
    by_cases hpe : p e = true
    · simp only [hpe, if_true] at h
      cases i with
      | zero =>
        simp only [Option.some.injEq] at h
        subst h
        exact ⟨rfl, by simp⟩
      | succ j =>
        simp only [Option.map_eq_some'] at h
        obtain ⟨r, hr, hl1⟩ := h
        subst hl1
        obtain ⟨h1, h2⟩ := ih j r hr
        exact ⟨by simp [h1], by simp [h2]⟩
    · simp only [hpe, if_false, Option.map_eq_some', Bool.false_eq_true] at h
      obtain ⟨r, hr, hl1⟩ := h
      subst hl1
      obtain ⟨h1, h2⟩ := ih i r hr
      exact ⟨by simp [h1], by simp; omega⟩

theorem forEachLive_finishes (p : Element → Bool) (f : Element → Element) (fuel i : Nat)
    (l : List Element) (hfuel : l.length < fuel + i) (hi : i ≤ l.length) :
    ∃ l1, forEachLive p f fuel i l = some l1 ∧ l1.length = l.length := by
  induction fuel generalizing i l with
  | zero => omega
  | succ fuel ih =>
    unfold forEachLive
    cases hm : modifyNthMatch p f i l with
    | none => exact ⟨l, rfl, rfl⟩
    | some l1 =>
      obtain ⟨h1, h2⟩ := modifyNthMatch_length p f i l l1 hm
      obtain ⟨l2, h3, h4⟩ := ih (i + 1) l1 (by omega) (by omega)
      exact ⟨l2, h3, h4.trans h1⟩

/-- On every page and for every argument, `openTab` ends by returning or by throwing:
the loops never exhaust the fuel they are given. -/
theorem openTab_never_out_of_fuel (currentTarget : Nat) (tabName : String) (w : World) :
    (openTab currentTarget tabName w).2 ≠ .outOfFuel := by
  obtain ⟨page1, h1, hl1⟩ := forEachLive_finishes (hasClass "tabcontent") hidePanel
    (w.page.length + 1) 0 w.page (by omega) (by omega)
  obtain ⟨page2, h2, _⟩ := forEachLive_finishes (hasClass "tablinks") deactivate
    (page1.length + 1) 0 page1 (by omega) (by omega)
  unfold openTab
  simp only [h1, h2]
  split
  · simp
  · split <;> simp

/-! ### C10 -/

/-- C10 fails on the code: in the binary variant a message of three blanks, which
`trim` reduces to the empty text, passes the check; the request is sent carrying the
blanks and no notice is shown, while the URL variant rejects the same input. -/
theorem encodeFile_binary_sends_blank_message :
    jsTrim "   " = "" ∧
    BinaryVariant.encodeFile "image" (.response (blobResponse true "OK" stegoBlob))
        sampleObjectUrl (binaryPanel "   ")
      = ({ binaryPanel "   " with log :=
          [.fetch "/encode/image" "POST"
              [("file", .file cover), ("secret_message", .text "   ")],
            .appendAnchor ⟨"blob:1", "stego_image.png"⟩,
            .clickAnchor ⟨"blob:1", "stego_image.png"⟩,
            .removeAnchor ⟨"blob:1", "stego_image.png"⟩] }, .done) ∧
    UrlVariant.encodeFile "image" "encodeImageFile" "encodeImageMsg" (.response stegoReady)
        networkDown (urlPanel "   ")
      = ((urlPanel "   ").emit (.alert validationNotice), .done) :=
  ⟨by decide, by decide, by decide⟩

end StegoClient
